import Mathlib

/-!
Shallow embedding of cartographer/mapping_3d/sparse_pose_graph.cc.

Rigid 3D transforms (transform::Rigid3d) are modelled as elements of an
arbitrary group G: the source only composes them (operator*), inverts them
(inverse()) and uses the identity (Rigid3d::Identity()), so the group
operations are exactly the interface consumed.  External components whose
code is not part of the source file (the optimization problem facade, the
constraint builder, the fixed-ratio sampler, trajectory connectivity, and
the covariance square-root inverse) are modelled from the spec as oracles
or abstract functions; each such definition says so in its doc comment.
Fallible C++ operations (CHECK macros, std container .at and undefined
behaviour such as back() on an empty vector) are modelled in the Option
monad: a none result stands for an aborted or undefined execution.
-/

namespace Cartographer

/-- mapping::SubmapId: a dense per-trajectory submap index. -/
structure SubmapId where
  trajectory_id : Nat
  submap_index : Nat
deriving DecidableEq, Repr

/-- mapping::NodeId: a dense per-trajectory node index. -/
structure NodeId where
  trajectory_id : Nat
  node_index : Nat
deriving DecidableEq, Repr

/-- A Submap handle as seen by the pose graph: pointer identity is modelled
by the handle field, local_pose() is a stable property of the handle, and
finished is the front-end flag read at AddScan call time. -/
structure Submap (G : Type) where
  handle : Nat
  local_pose : G
  finished : Bool
deriving DecidableEq, Repr

/-- SparsePoseGraph::SubmapState from the header: the submap handle, the
set of node ids inserted into the submap, and the finished flag. -/
structure SubmapState (G : Type) where
  submap : Submap G
  node_ids : List NodeId
  finished : Bool
deriving DecidableEq, Repr

/-- sparse_pose_graph::SubmapData held by the optimization problem.
Modelled from the spec: the optimization problem facade holds one global
pose per submap. -/
structure SubmapData (G : Type) where
  pose : G
deriving DecidableEq, Repr

/-- sparse_pose_graph::NodeData held by the optimization problem.
Modelled from the spec: the optimization problem facade holds one pose
per trajectory node, with its timestamp. -/
structure NodeData (G : Type) where
  time : Nat
  point_cloud_pose : G
deriving DecidableEq, Repr

/-- mapping::TrajectoryNode flattened: the immutable ConstantData is
reduced to the fields the pose graph reads (trajectory_id and time), plus
the mutable globally optimized pose. -/
structure TrajectoryNode (G : Type) where
  trajectory_id : Nat
  time : Nat
  pose : G
deriving DecidableEq, Repr

/-- SparsePoseGraph::Constraint::Tag. -/
inductive ConstraintTag where
  | INTRA_SUBMAP
  | INTER_SUBMAP
deriving DecidableEq, Repr

/-- SparsePoseGraph::Constraint::Pose: relative transform and square-root
information matrix (the latter an opaque payload of type Info). -/
structure ConstraintPose (G Info : Type) where
  zbar_ij : G
  sqrt_Lambda_ij : Info
deriving DecidableEq, Repr

/-- SparsePoseGraph::Constraint. -/
structure Constraint (G Info : Type) where
  submap_id : SubmapId
  node_id : NodeId
  pose : ConstraintPose G Info
  tag : ConstraintTag
deriving DecidableEq, Repr

/-- Configuration options read by the source file. -/
structure SparsePoseGraphOptions (Bnd : Type) where
  optimize_every_n_scans : Nat
  lower_covariance_eigenvalue_bound : Bnd

/-- External pure functions consumed by the source file.
computeSpdMatrixSqrtInverse models common::ComputeSpdMatrixSqrtInverse
(code outside this file): an abstract function of the covariance and the
eigenvalue floor. -/
structure Env (Cov Info Bnd : Type) where
  computeSpdMatrixSqrtInverse : Cov → Bnd → Info
  options : SparsePoseGraphOptions Bnd

/-- The deferred work items. Modelled as spec section 9 suggests: a tagged
variant capturing the values the C++ lambdas capture by value. -/
inductive WorkItem (G Cov : Type) where
  | computeScan (scan_index : Nat) (matching_submap : Submap G)
      (insertion_submaps : List (Submap G))
      (finished_submap : Option (Submap G)) (pose : G) (covariance : Cov)
  | addImu (trajectory_handle : Nat) (payload : Nat)
deriving DecidableEq

/-- Observable events emitted by the model: proposals handed to the
constraint builder, the end-of-scan barrier, submap completion, solver
invocations and work-item executions. -/
inductive Event (G Cov : Type) where
  | decide (scan_index : Nat) (submap_id : SubmapId)
  | proposeGlobal (submap_id : SubmapId) (node_id : NodeId) (scan_index : Nat)
  | proposeLocal (submap_id : SubmapId) (node_id : NodeId) (scan_index : Nat)
      (relative_pose : G)
  | notifyEndOfScan (scan_index : Nat)
  | finishSubmap (submap_id : SubmapId)
  | solve
  | runItem (item : WorkItem G Cov)
deriving DecidableEq

/-- The mutable state of SparsePoseGraph; fields follow the member list
evident from the source file.  Members of external classes that the file
mutates (the optimization problem data, connectivity, samplers) are
inlined as fields, modelled from the spec. -/
structure State (G Cov Info : Type) where
  trajectory_ids : List Nat
  trajectory_nodes : List (TrajectoryNode G)
  submap_ids : List (Nat × SubmapId)
  submap_states : List (List (SubmapState G))
  constraints : List (Constraint G Info)
  scan_index_to_node_id : List NodeId
  num_nodes_in_trajectory : Nat → Nat
  opt_submap_data : List (List (SubmapData G))
  opt_node_data : List (List (NodeData G))
  opt_imu : List (Nat × Nat)
  optimized_submap_transforms : List (List (SubmapData G))
  connectivity : List Nat
  connected_components : List (List Nat)
  reverse_connected_components : List (Nat × Nat)
  num_scans_since_last_loop_closure : Nat
  run_loop_closure : Bool
  scan_queue : Option (List (WorkItem G Cov))
  samplers : List (Nat × ((Nat → Bool) × Nat))

/-- The freshly constructed pose graph: everything empty, synchronous
mode, no pending optimization. -/
def initState (G Cov Info : Type) : State G Cov Info where
  trajectory_ids := []
  trajectory_nodes := []
  submap_ids := []
  submap_states := []
  constraints := []
  scan_index_to_node_id := []
  num_nodes_in_trajectory := fun _ => 0
  opt_submap_data := []
  opt_node_data := []
  opt_imu := []
  optimized_submap_transforms := []
  connectivity := []
  connected_components := []
  reverse_connected_components := []
  num_scans_since_last_loop_closure := 0
  run_loop_closure := false
  scan_queue := none
  samplers := []

section Model

variable {G Cov Info Bnd : Type} [Group G]

/-- Replace the element at an index, leaving the list unchanged when the
index is out of range. -/
def listModify (f : α → α) : Nat → List α → List α
  | _, [] => []
  | 0, a :: l => f a :: l
  | n + 1, a :: l => a :: listModify f n l

/-- Keyed insert into the registry: idempotent on the second call. -/
def registerHandle (l : List Nat) (h : Nat) : List Nat :=
  if h ∈ l then l else l ++ [h]

/-- Dense id of a registered handle: its position in registration order. -/
def handleId (h : Nat) : List Nat → Option Nat
  | [] => none
  | a :: l => if a = h then some 0 else (handleId h l).map (· + 1)

/-- std::set emplace: insert if not already a member. -/
def setEmplace [DecidableEq α] (a : α) (l : List α) : List α :=
  if a ∈ l then l else l ++ [a]

/-- Grow an outer vector of vectors to the requested size with empty inner
vectors, as std vector resize does. -/
def padTo (l : List (List α)) (n : Nat) : List (List α) :=
  l ++ List.replicate (n - l.length) []

/-- submap_ids_.at lookup. GetSubmapId is declared in the header outside
this file; modelled from the spec: a submap handle maps to its SubmapId
via the registry. -/
def getSubmapId (s : State G Cov Info) (submap : Submap G) : Option SubmapId :=
  s.submap_ids.lookup submap.handle

/-- submap_states_.at(id.trajectory_id).at(id.submap_index). -/
def stateAt (s : State G Cov Info) (id : SubmapId) : Option (SubmapState G) :=
  (s.submap_states.get? id.trajectory_id).bind (fun l => l.get? id.submap_index)

/-- optimization_problem_.submap_data().at(...).at(...). -/
def optSubmapAt (d : List (List (SubmapData G))) (id : SubmapId) : Option (SubmapData G) :=
  (d.get? id.trajectory_id).bind (fun l => l.get? id.submap_index)

/-- optimization_problem_.node_data().at(...).at(...). -/
def optNodeAt (d : List (List (NodeData G))) (id : NodeId) : Option (NodeData G) :=
  (d.get? id.trajectory_id).bind (fun l => l.get? id.node_index)

/-- Placeholder submap state used as the default of in-bounds getD
accesses; never the value actually read. -/
def submapStateD : SubmapState G := ⟨⟨0, 1, false⟩, [], false⟩

/-- One loop step of ExtrapolateSubmapTransforms (lines 470-488): either
take the optimized pose verbatim from the snapshot, or seed with identity,
or extrapolate from the previous result by the relative local-pose step. -/
def extrapNext (states_all : List (SubmapState G))
    (submap_transforms : List (List (SubmapData G))) (trajectory_id : Nat)
    (result : List G) (st : SubmapState G) : G :=
  if trajectory_id < submap_transforms.length ∧
      result.length < (submap_transforms.getD trajectory_id []).length then
    ((submap_transforms.getD trajectory_id []).getD result.length ⟨1⟩).pose
  else if result.isEmpty then
    1
  else
    result.getLastD 1 *
      ((states_all.getD (result.length - 1) submapStateD).submap.local_pose)⁻¹ *
      st.submap.local_pose

/-- The range-for loop of ExtrapolateSubmapTransforms with its push_back
accumulator. -/
def extrapGo (states_all : List (SubmapState G))
    (submap_transforms : List (List (SubmapData G))) (trajectory_id : Nat) :
    List (SubmapState G) → List G → List G
  | [], result => result
  | st :: rest, result =>
      extrapGo states_all submap_transforms trajectory_id rest
        (result ++ [extrapNext states_all submap_transforms trajectory_id result st])

/-- SparsePoseGraph::ExtrapolateSubmapTransforms (lines 460-494). -/
def extrapolateSubmapTransforms (submap_states : List (List (SubmapState G)))
    (submap_transforms : List (List (SubmapData G))) (trajectory_id : Nat) : List G :=
  if submap_states.length ≤ trajectory_id then [1]
  else
    let states := submap_states.getD trajectory_id []
    let result := extrapGo states submap_transforms trajectory_id states []
    if result.isEmpty then [1] else result

/-- SparsePoseGraph::GetSubmapTransforms(const mapping::Submaps*)
(lines 443-451): identity singleton for an unregistered trajectory,
otherwise extrapolation over the last optimized snapshot. -/
def getSubmapTransforms (s : State G Cov Info) (trajectory_handle : Nat) : List G :=
  match handleId trajectory_handle s.trajectory_ids with
  | none => [1]
  | some tid => extrapolateSubmapTransforms s.submap_states s.optimized_submap_transforms tid

/-- SparsePoseGraph::GetLocalToGlobalTransform (lines 429-436).  The
trajectory handle is an opaque front-end Submaps collection; its Get(i)
local poses are supplied as the function submaps_local_pose, external code
not in this file. -/
def getLocalToGlobalTransform (s : State G Cov Info)
    (submaps_local_pose : Nat → G) (trajectory_handle : Nat) : G :=
  let ext := getSubmapTransforms s trajectory_handle
  ext.getLastD 1 * (submaps_local_pose (ext.length - 1))⁻¹

/-- OptimizationProblem::AddSubmap.  Modelled from the spec: the facade
grows the per-trajectory submap pose list, creating trajectories up to the
given id when needed. -/
def optAddSubmap (d : List (List (SubmapData G))) (tid : Nat) (pose : G) :
    List (List (SubmapData G)) :=
  listModify (fun l => l ++ [⟨pose⟩]) tid (padTo d (tid + 1))

/-- OptimizationProblem::AddTrajectoryNode.  Modelled from the spec: the
facade appends to the per-trajectory node data list. -/
def optAddTrajectoryNode (d : List (List (NodeData G))) (tid : Nat)
    (time : Nat) (pose : G) : List (List (NodeData G)) :=
  listModify (fun l => l ++ [⟨time, pose⟩]) tid (padTo d (tid + 1))

/-- SparsePoseGraph::GrowSubmapTransformsAsNeeded (lines 55-87). -/
def growSubmapTransformsAsNeeded (s : State G Cov Info)
    (insertion_submaps : List (Submap G)) : Option (State G Cov Info) := do
  let first ← insertion_submaps.head?
  let first_submap_id ← getSubmapId s first
  let trajectory_id := first_submap_id.trajectory_id
  let d := s.opt_submap_data
  if insertion_submaps.length = 1 then do
    guard (first_submap_id.submap_index = 0)
    if d.length ≤ trajectory_id ∨ (d.getD trajectory_id []).isEmpty = true then
      return { s with opt_submap_data := optAddSubmap d trajectory_id 1 }
    else
      return s
  else do
    guard (insertion_submaps.length = 2)
    let traj_data ← d.get? trajectory_id
    let next_submap_index := traj_data.length
    let second ← insertion_submaps.get? 1
    let second_submap_id ← getSubmapId s second
    guard (second_submap_id.trajectory_id = trajectory_id)
    guard (second_submap_id.submap_index ≤ next_submap_index)
    if second_submap_id.submap_index = next_submap_index then do
      let first_submap_pose ← traj_data.get? first_submap_id.submap_index
      let new_pose := first_submap_pose.pose * first.local_pose⁻¹ * second.local_pose
      return { s with opt_submap_data := optAddSubmap d trajectory_id new_pose }
    else
      return s

/-- Bump the pulse counter of the sampler of one trajectory. -/
def bumpSampler : List (Nat × ((Nat → Bool) × Nat)) → Nat →
    List (Nat × ((Nat → Bool) × Nat))
  | [], _ => []
  | (k, (f, n)) :: l, tid =>
      if k = tid then (k, (f, n + 1)) :: l else (k, (f, n)) :: bumpSampler l tid

/-- FixedRatioSampler::Pulse.  Modelled from the spec: the Bernoulli
sampler of a trajectory is an abstract boolean stream; each pulse consumes
one decision.  A missing sampler is a null dereference (none). -/
def pulse (s : State G Cov Info) (tid : Nat) : Option (Bool × State G Cov Info) :=
  match s.samplers.lookup tid with
  | none => none
  | some (f, n) => some (f n, { s with samplers := bumpSampler s.samplers tid })

/-- Shared else-branch of ComputeConstraint (lines 188-203): equal or
already connected trajectories get a local match anchored at the prior
relative pose, otherwise nothing is proposed. -/
def computeConstraintElse (s : State G Cov Info) (scan_index : Nat)
    (submap_id : SubmapId) (node_id : NodeId) (relative_pose : G)
    (scan_trajectory_id : Nat) : Option (State G Cov Info × List (Event G Cov)) :=
  let ca := s.reverse_connected_components.lookup scan_trajectory_id
  let cb := s.reverse_connected_components.lookup submap_id.trajectory_id
  if scan_trajectory_id = submap_id.trajectory_id ∨
      (ca.isSome = true ∧ cb.isSome = true ∧ ca = cb) then do
    let _ ← stateAt s submap_id
    some (s, [Event.proposeLocal submap_id node_id scan_index relative_pose])
  else
    some (s, [])

/-- SparsePoseGraph::ComputeConstraint (lines 165-204). -/
def computeConstraint (s : State G Cov Info) (scan_index : Nat)
    (submap_id : SubmapId) : Option (State G Cov Info × List (Event G Cov)) := do
  let node_id ← s.scan_index_to_node_id.get? scan_index
  let sd ← optSubmapAt s.opt_submap_data submap_id
  let nd ← optNodeAt s.opt_node_data node_id
  let relative_pose := sd.pose⁻¹ * nd.point_cloud_pose
  let scan_node ← s.trajectory_nodes.get? scan_index
  let scan_trajectory_id := scan_node.trajectory_id
  let r ←
    if scan_trajectory_id ≠ submap_id.trajectory_id then do
      let pr ← pulse s scan_trajectory_id
      if pr.1 then do
        let _ ← stateAt pr.2 submap_id
        some (pr.2, [Event.proposeGlobal submap_id node_id scan_index])
      else
        computeConstraintElse pr.2 scan_index submap_id node_id relative_pose
          scan_trajectory_id
    else
      computeConstraintElse s scan_index submap_id node_id relative_pose
        scan_trajectory_id
  return (r.1, Event.decide scan_index submap_id :: r.2)

/-- Modify one submap state addressed by a SubmapId. -/
def modifySubmapState (states : List (List (SubmapState G))) (id : SubmapId)
    (f : SubmapState G → SubmapState G) : List (List (SubmapState G)) :=
  listModify (fun l => listModify f id.submap_index l) id.trajectory_id states

/-- Lines 224-241 of ComputeConstraintsForScan: compute the improved
provisional pose from the matching submap, allocate the dense NodeId,
record the scan-index bijection and push the node into the optimizer. -/
def allocateNode (s : State G Cov Info) (scan_index : Nat)
    (matching_submap : Submap G) (pose : G) :
    Option (State G Cov Info × NodeId) := do
  let matching_id ← getSubmapId s matching_submap
  let msd ← optSubmapAt s.opt_submap_data matching_id
  let optimized_pose := msd.pose * matching_submap.local_pose⁻¹ * pose
  guard (scan_index = s.scan_index_to_node_id.length)
  let node_id : NodeId :=
    ⟨matching_id.trajectory_id, s.num_nodes_in_trajectory matching_id.trajectory_id⟩
  let scan_data ← s.trajectory_nodes.get? scan_index
  guard (scan_data.trajectory_id = matching_id.trajectory_id)
  return ({ s with
    scan_index_to_node_id := s.scan_index_to_node_id ++ [node_id],
    num_nodes_in_trajectory := fun t =>
      if t = matching_id.trajectory_id then s.num_nodes_in_trajectory t + 1
      else s.num_nodes_in_trajectory t,
    opt_node_data := optAddTrajectoryNode s.opt_node_data
      matching_id.trajectory_id scan_data.time optimized_pose }, node_id)

/-- Lines 242-261 of ComputeConstraintsForScan: for every insertion submap
assert it is unfinished, record the node id, and append the intra-submap
constraint. -/
def addIntraConstraints (env : Env Cov Info Bnd) (node_id : NodeId) (pose : G)
    (covariance : Cov) : State G Cov Info → List (Submap G) →
    Option (State G Cov Info)
  | s, [] => some s
  | s, submap :: rest => do
      let submap_id ← getSubmapId s submap
      let st ← stateAt s submap_id
      guard (st.finished = false)
      let states1 := modifySubmapState s.submap_states submap_id
        (fun t => { t with node_ids := setEmplace node_id t.node_ids })
      let s1 := { s with submap_states := states1 }
      let constraint_transform := submap.local_pose⁻¹ * pose
      let sqrt_info := env.computeSpdMatrixSqrtInverse covariance
        env.options.lower_covariance_eigenvalue_bound
      let c : Constraint G Info :=
        ⟨submap_id, node_id, ⟨constraint_transform, sqrt_info⟩, ConstraintTag.INTRA_SUBMAP⟩
      let s2 := { s1 with constraints := s1.constraints ++ [c] }
      addIntraConstraints env node_id pose covariance s2 rest

/-- The ids of all finished submaps, in trajectory-major order, as the
nested loop of lines 263-278 enumerates them. -/
def finishedSubmapIds (states : List (List (SubmapState G))) : List SubmapId :=
  (states.enum.map (fun p =>
    p.2.enum.filterMap (fun q =>
      if q.2.finished then some (⟨p.1, q.1⟩ : SubmapId) else none))).flatten

/-- Lines 263-278 of ComputeConstraintsForScan: match the new scan against
every finished submap.  ComputeConstraint does not modify submap_states,
so the iteration set enumerated at entry is the one the loop reads. -/
def matchAgainstFinished (node_id : NodeId) (scan_index : Nat) :
    State G Cov Info → List SubmapId →
    Option (State G Cov Info × List (Event G Cov))
  | s, [] => some (s, [])
  | s, id :: rest => do
      let st ← stateAt s id
      guard (node_id ∉ st.node_ids)
      let r1 ← computeConstraint s scan_index id
      let r2 ← matchAgainstFinished node_id scan_index r1.1 rest
      return (r2.1, r1.2 ++ r2.2)

/-- The loop of ComputeConstraintsForOldScans (lines 211-215). -/
def oldScanLoop (submap_id : SubmapId) (node_ids : List NodeId) :
    State G Cov Info → List Nat → Option (State G Cov Info × List (Event G Cov))
  | s, [] => some (s, [])
  | s, i :: rest => do
      let nid ← s.scan_index_to_node_id.get? i
      if nid ∈ node_ids then
        oldScanLoop submap_id node_ids s rest
      else do
        let r1 ← computeConstraint s i submap_id
        let r2 ← oldScanLoop submap_id node_ids r1.1 rest
        return (r2.1, r1.2 ++ r2.2)

/-- SparsePoseGraph::ComputeConstraintsForOldScans (lines 206-216).  The
C++ takes a const reference to the submap state; ComputeConstraint never
modifies node_ids, so the snapshot taken here is what every iteration
reads. -/
def computeConstraintsForOldScans (s : State G Cov Info) (submap : Submap G) :
    Option (State G Cov Info × List (Event G Cov)) := do
  let submap_id ← getSubmapId s submap
  let st ← stateAt s submap_id
  oldScanLoop submap_id st.node_ids s
    (List.range s.scan_index_to_node_id.length)

/-- Lines 280-290 of ComputeConstraintsForScan: when a submap was just
completed, match all old scans against it and then mark it finished. -/
def handleFinishedSubmap (s : State G Cov Info) :
    Option (Submap G) → Option (State G Cov Info × List (Event G Cov))
  | none => some (s, [])
  | some fsub => do
      let fid ← getSubmapId s fsub
      let st ← stateAt s fid
      guard (st.finished = false)
      let r ← computeConstraintsForOldScans s fsub
      let states2 := modifySubmapState r.1.submap_states fid
        (fun t => { t with finished := true })
      let s2 := { r.1 with submap_states := states2 }
      return (s2, r.2 ++ [Event.finishSubmap fid])

/-- Lines 292-302 of ComputeConstraintsForScan: bump the counter and,
past the threshold, raise the pending flag and allocate the queue.
HandleScanQueue only registers the when-idle callback with the constraint
builder; the callback firing is the fireCallback step of the protocol. -/
def endOfScanTrigger (env : Env Cov Info Bnd) (s : State G Cov Info) :
    Option (State G Cov Info) := do
  let counter1 := s.num_scans_since_last_loop_closure + 1
  let s1 := { s with num_scans_since_last_loop_closure := counter1 }
  if env.options.optimize_every_n_scans > 0 ∧
      s1.num_scans_since_last_loop_closure > env.options.optimize_every_n_scans then do
    guard (s1.run_loop_closure = false)
    let s2 := { s1 with run_loop_closure := true }
    match s2.scan_queue with
    | none => return { s2 with scan_queue := some [] }
    | some _ => return s2
  else
    return s1

/-- SparsePoseGraph::ComputeConstraintsForScan (lines 218-303). -/
def computeConstraintsForScan (env : Env Cov Info Bnd) (s : State G Cov Info)
    (scan_index : Nat) (matching_submap : Submap G)
    (insertion_submaps : List (Submap G)) (finished_submap : Option (Submap G))
    (pose : G) (covariance : Cov) :
    Option (State G Cov Info × List (Event G Cov)) := do
  let s1 ← growSubmapTransformsAsNeeded s insertion_submaps
  let r2 ← allocateNode s1 scan_index matching_submap pose
  let s3 ← addIntraConstraints env r2.2 pose covariance r2.1 insertion_submaps
  let r4 ← matchAgainstFinished r2.2 scan_index s3 (finishedSubmapIds s3.submap_states)
  let r5 ← handleFinishedSubmap r4.1 finished_submap
  let s6 ← endOfScanTrigger env r5.1
  return (s6, r4.2 ++ r5.2 ++ [Event.notifyEndOfScan scan_index])

/-- Execution of one deferred work item: the body of the corresponding
C++ lambda. -/
def execWorkItem (env : Env Cov Info Bnd) (s : State G Cov Info) :
    WorkItem G Cov → Option (State G Cov Info × List (Event G Cov))
  | WorkItem.computeScan idx m ins fin pose cov =>
      computeConstraintsForScan env s idx m ins fin pose cov
  | WorkItem.addImu h payload => do
      let tid ← handleId h s.trajectory_ids
      some ({ s with opt_imu := s.opt_imu ++ [(tid, payload)] }, [])

/-- SparsePoseGraph::AddWorkItem (lines 145-151): run inline in
synchronous mode, buffer in deferred mode. -/
def addWorkItem (env : Env Cov Info Bnd) (s : State G Cov Info)
    (item : WorkItem G Cov) : Option (State G Cov Info × List (Event G Cov)) :=
  match s.scan_queue with
  | none => execWorkItem env s item
  | some q => some ({ s with scan_queue := some (q ++ [item]) }, [])

/-- Make sure a sampler exists for this trajectory (lines 126-131); the
fresh Bernoulli stream is supplied by the caller oracle. -/
def ensureSampler (s : State G Cov Info) (tid : Nat) (stream : Nat → Bool) :
    State G Cov Info :=
  if (s.samplers.lookup tid).isSome then s
  else { s with samplers := s.samplers ++ [(tid, (stream, 0))] }

/-- SparsePoseGraph::AddScan (lines 89-138). -/
def addScan (env : Env Cov Info Bnd) (s : State G Cov Info)
    (trajectory_handle : Nat) (submaps_local_pose : Nat → G) (time : Nat)
    (pose : G) (covariance : Cov) (matching_submap : Submap G)
    (insertion_submaps : List (Submap G)) (sampler_stream : Nat → Bool) :
    Option (State G Cov Info × List (Event G Cov)) := do
  let optimized_pose :=
    getLocalToGlobalTransform s submaps_local_pose trajectory_handle * pose
  let s1 := { s with trajectory_ids := registerHandle s.trajectory_ids trajectory_handle }
  let trajectory_id ← handleId trajectory_handle s1.trajectory_ids
  let flat_scan_index := s1.trajectory_nodes.length
  let new_node : TrajectoryNode G := ⟨trajectory_id, time, optimized_pose⟩
  let nodes2 := s1.trajectory_nodes ++ [new_node]
  let conn2 := setEmplace trajectory_id s1.connectivity
  let s2 := { s1 with trajectory_nodes := nodes2, connectivity := conn2 }
  let last_submap ← insertion_submaps.getLast?
  let s3 :=
    if (s2.submap_ids.lookup last_submap.handle).isSome then s2
    else
      let states := padTo s2.submap_states (trajectory_id + 1)
      let new_state : SubmapState G := ⟨last_submap, [], false⟩
      let states3 := listModify (fun l => l ++ [new_state]) trajectory_id states
      let new_id : SubmapId := ⟨trajectory_id, (states.getD trajectory_id []).length⟩
      let ids3 := s2.submap_ids ++ [(last_submap.handle, new_id)]
      { s2 with submap_states := states3, submap_ids := ids3 }
  let first_submap ← insertion_submaps.head?
  let finished_submap := if first_submap.finished then some first_submap else none
  let s4 := ensureSampler s3 trajectory_id sampler_stream
  addWorkItem env s4 (WorkItem.computeScan flat_scan_index matching_submap
    insertion_submaps finished_submap pose covariance)

/-- SparsePoseGraph::AddImuData (lines 153-163); the sensor sample is an
opaque payload. -/
def addImuData (env : Env Cov Info Bnd) (s : State G Cov Info)
    (trajectory_handle : Nat) (payload : Nat) :
    Option (State G Cov Info × List (Event G Cov)) :=
  let s1 := { s with trajectory_ids := registerHandle s.trajectory_ids trajectory_handle }
  addWorkItem env s1 (WorkItem.addImu trajectory_handle payload)

/-- The data the external solver and connectivity produce during one
RunOptimization.  Modelled from the spec: Solve returns updated submap and
node poses; ConnectedComponents is computed by the external connectivity
class. -/
structure SolveOracle (G : Type) where
  submap_data : List (List (SubmapData G))
  node_data : List (List (NodeData G))
  components : List (List Nat)

/-- One batch of inter-submap loop-closure constraints reported by the
constraint builder when its pipeline went idle.  Modelled from the spec:
inter-submap constraints originate from the matcher. -/
structure MatcherResult (G Info : Type) where
  items : List (SubmapId × NodeId × G × Info)

/-- The constraints of a matcher batch, tagged INTER_SUBMAP. -/
def interify (r : MatcherResult G Info) : List (Constraint G Info) :=
  r.items.map (fun q => ⟨q.1, q.2.1, ⟨q.2.2.1, q.2.2.2⟩, ConstraintTag.INTER_SUBMAP⟩)

/-- Lines 378-385 of RunOptimization: copy every optimized node pose back
into the flat node list. -/
def copyOptimizedPoses (node_data : List (List (NodeData G))) :
    State G Cov Info → List Nat → Option (State G Cov Info)
  | s, [] => some s
  | s, i :: rest => do
      let nid ← s.scan_index_to_node_id.get? i
      let d ← optNodeAt node_data nid
      let node ← s.trajectory_nodes.get? i
      let nodes1 := s.trajectory_nodes.set i { node with pose := d.point_cloud_pose }
      copyOptimizedPoses node_data { s with trajectory_nodes := nodes1 } rest

/-- Lines 386-402 of RunOptimization: left-multiply every node appended
after the optimized set by the per-trajectory extrapolation transform,
computed once per trajectory and cached. -/
def extrapolateTail : State G Cov Info → List Nat → List (Nat × G) →
    Option (State G Cov Info)
  | s, [], _ => some s
  | s, i :: rest, cache => do
      let node ← s.trajectory_nodes.get? i
      let tid := node.trajectory_id
      let ce ←
        match cache.lookup tid with
        | some e => some (cache, e)
        | none =>
            let newT := extrapolateSubmapTransforms s.submap_states s.opt_submap_data tid
            let oldT := extrapolateSubmapTransforms s.submap_states
              s.optimized_submap_transforms tid
            if newT.length = oldT.length then
              some (cache ++ [(tid, newT.getLastD 1 * (oldT.getLastD 1)⁻¹)],
                newT.getLastD 1 * (oldT.getLastD 1)⁻¹)
            else
              none
      let nodes1 := s.trajectory_nodes.set i { node with pose := ce.2 * node.pose }
      extrapolateTail { s with trajectory_nodes := nodes1 } rest ce.1

/-- Lines 405-410 of RunOptimization: the reverse map from trajectory id
to connected-component index, built with first-wins emplace. -/
def buildReverse (components : List (List Nat)) : List (Nat × Nat) :=
  components.enum.foldl (fun m p =>
    p.2.foldl (fun m tid =>
      if (m.lookup tid).isSome then m else m ++ [(tid, p.1)]) m) []

/-- SparsePoseGraph::RunOptimization (lines 371-411). -/
def runOptimization (o : SolveOracle G) (s : State G Cov Info) :
    Option (State G Cov Info × List (Event G Cov)) :=
  if s.opt_submap_data.isEmpty then some (s, [])
  else do
    let s1 := { s with opt_submap_data := o.submap_data, opt_node_data := o.node_data }
    let num_optimized_poses := s1.scan_index_to_node_id.length
    let s2 ← copyOptimizedPoses s1.opt_node_data s1 (List.range num_optimized_poses)
    let s3 ← extrapolateTail s2
      (List.range' num_optimized_poses (s2.trajectory_nodes.length - num_optimized_poses)) []
    let rcc := buildReverse o.components
    let snap := s3.opt_submap_data
    let s4 := { s3 with optimized_submap_transforms := snap, connected_components := o.components, reverse_connected_components := rcc }
    return (s4, [Event.solve])

/-- The drain loop of the when-idle callback (lines 314-322).  The queue
is threaded structurally: it is non-null throughout, and work items never
touch it other than testing it for null. -/
def drainLoop (env : Env Cov Info Bnd) :
    State G Cov Info → List (WorkItem G Cov) →
    Option (State G Cov Info × List (Event G Cov))
  | s, [] =>
      if s.run_loop_closure then some ({ s with scan_queue := some [] }, [])
      else some ({ s with scan_queue := none }, [])
  | s, item :: rest =>
      if s.run_loop_closure then
        some ({ s with scan_queue := some (item :: rest) }, [])
      else do
        let r1 ← execWorkItem env { s with scan_queue := some (item :: rest) } item
        let r2 ← drainLoop env { r1.1 with scan_queue := some rest } rest
        return (r2.1, Event.runItem item :: (r1.2 ++ r2.2))

/-- The when-idle callback registered by HandleScanQueue (lines 306-325):
absorb the matcher constraints, optimize, reset the counter and the
pending flag, then drain.  The callback exists exactly while the queue
does; if the drain exits with the flag re-raised, HandleScanQueue
re-registers it and the next fireCallback continues. -/
def handleQueueCallback (env : Env Cov Info Bnd) (o : SolveOracle G)
    (result : MatcherResult G Info) (s : State G Cov Info) :
    Option (State G Cov Info × List (Event G Cov)) := do
  let q ← s.scan_queue
  let s1 := { s with constraints := s.constraints ++ interify result }
  let r2 ← runOptimization o s1
  let s3 := { r2.1 with num_scans_since_last_loop_closure := 0, run_loop_closure := false }
  let r4 ← drainLoop env s3 q
  return (r4.1, r2.2 ++ r4.2)

/-- Iterated callback rounds, one per re-entry of the driver, until the
queue is deallocated or the supplied oracle rounds run out. -/
def runRounds (env : Env Cov Info Bnd) :
    List (SolveOracle G × MatcherResult G Info) → State G Cov Info →
    Option (State G Cov Info × List (Event G Cov))
  | [], s => some (s, [])
  | (o, r) :: rest, s => do
      let r1 ← handleQueueCallback env o r s
      match r1.1.scan_queue with
      | none => some r1
      | some _ => do
          let r2 ← runRounds env rest r1.1
          return (r2.1, r1.2 ++ r2.2)

/-- SparsePoseGraph::RunFinalOptimization (lines 360-369).
WaitForAllComputations issues a final when-idle callback that absorbs the
last batch of matcher constraints; SetMaxNumIterations only reconfigures
the external solver. -/
def runFinalOptimization (wait_result : MatcherResult G Info)
    (o : SolveOracle G) (s : State G Cov Info) :
    Option (State G Cov Info × List (Event G Cov)) :=
  runOptimization o { s with constraints := s.constraints ++ interify wait_result }

/-- One externally triggered transition of the pose graph. -/
inductive Op (G Cov Info : Type) where
  | addScan (trajectory_handle : Nat) (submaps_local_pose : Nat → G)
      (time : Nat) (pose : G) (covariance : Cov) (matching_submap : Submap G)
      (insertion_submaps : List (Submap G)) (sampler_stream : Nat → Bool)
  | addImuData (trajectory_handle : Nat) (payload : Nat)
  | fireCallback (o : SolveOracle G) (result : MatcherResult G Info)
  | absorbResult (result : MatcherResult G Info)
  | runFinalOptimization (wait_result : MatcherResult G Info) (o : SolveOracle G)

/-- The step function of the protocol: absorbResult is the constraint
batch absorbed by WaitForAllComputations, fireCallback the when-idle
callback of the drain driver. -/
def step (env : Env Cov Info Bnd) :
    Op G Cov Info → State G Cov Info →
    Option (State G Cov Info × List (Event G Cov))
  | Op.addScan h lp t p c m ins str, s => addScan env s h lp t p c m ins str
  | Op.addImuData h payload, s => addImuData env s h payload
  | Op.fireCallback o r, s => handleQueueCallback env o r s
  | Op.absorbResult r, s =>
      some ({ s with constraints := s.constraints ++ interify r }, [])
  | Op.runFinalOptimization w o, s => runFinalOptimization w o s

/-- The states reachable by any sequence of API calls from the freshly
constructed pose graph. -/
inductive Reach (env : Env Cov Info Bnd) : State G Cov Info → Prop where
  | init : Reach env (initState G Cov Info)
  | next {s s1 : State G Cov Info} {ev : List (Event G Cov)}
      (op : Op G Cov Info) : Reach env s → step env op s = some (s1, ev) →
      Reach env s1

/-- The per-trajectory extrapolation transform of lines 391-398: the tail
of the extrapolated transforms over the new optimizer submap data composed
with the inverse of the tail over the previous optimized snapshot. -/
def extrapolationTransform (s : State G Cov Info) (tid : Nat) : G :=
  (extrapolateSubmapTransforms s.submap_states s.opt_submap_data tid).getLastD 1 *
    ((extrapolateSubmapTransforms s.submap_states
        s.optimized_submap_transforms tid).getLastD 1)⁻¹

/-- Element-wise characterization of the extrapolated submap transforms,
as the spec words it: snapshot entries verbatim, identity seed, composed
relative local-pose step beyond the snapshot. -/
def extrapCharAt (states : List (SubmapState G))
    (snap : List (List (SubmapData G))) (tid : Nat) (L : List G) (i : Nat) : Prop :=
  (tid < snap.length ∧ i < (snap.getD tid []).length →
    L.getD i 1 = ((snap.getD tid []).getD i ⟨1⟩).pose) ∧
  (¬ (tid < snap.length ∧ i < (snap.getD tid []).length) →
    (i = 0 → L.getD i 1 = 1) ∧
    (0 < i → L.getD i 1 = L.getD (i - 1) 1 *
      ((states.getD (i - 1) submapStateD).submap.local_pose)⁻¹ *
      ((states.getD i submapStateD).submap.local_pose)))

/-- The nested submap-state accessor at the list level; stateAt applied to
a bare table. -/
def statesAt (states : List (List (SubmapState G))) (id : SubmapId) :
    Option (SubmapState G) :=
  (states.get? id.trajectory_id).bind (fun l => l.get? id.submap_index)

/-- Submap-state growth between two states: every registered submap stays
registered and its node_ids set only gains members. -/
def statesMono (a b : State G Cov Info) : Prop :=
  ∀ (id : SubmapId) (st : SubmapState G), stateAt a id = some st →
    ∃ st', stateAt b id = some st' ∧ ∀ n ∈ st.node_ids, n ∈ st'.node_ids

/-- The data-structure invariant behind claim C7: every intra-submap
constraint names a registered submap whose node_ids set contains the
constraint's node. -/
def IntraInv (s : State G Cov Info) : Prop :=
  ∀ c ∈ s.constraints, c.tag = ConstraintTag.INTRA_SUBMAP →
    ∃ st : SubmapState G, stateAt s c.submap_id = some st ∧ c.node_id ∈ st.node_ids

/-- The scan indices decided against one particular submap, in emission
order. -/
def decidesFor (fid : SubmapId) (evs : List (Event G Cov)) : List Nat :=
  evs.filterMap (fun e =>
    match e with
    | Event.decide i id => if id = fid then some i else none
    | _ => none)

/-- Whether the scan at this flat index names a node outside the given
node_ids set. -/
def unknownScan (tab : List NodeId) (node_ids : List NodeId) (i : Nat) : Bool :=
  match tab.get? i with
  | none => false
  | some nid => decide (nid ∉ node_ids)

/-- The work items actually executed by a drain, in execution order. -/
def itemsRun (evs : List (Event G Cov)) : List (WorkItem G Cov) :=
  evs.filterMap (fun e =>
    match e with
    | Event.runItem it => some it
    | _ => none)

end Model

/-- Shorthand for concrete group elements used by the witnesses: rigid
transforms are instantiated with the group Multiplicative Int. -/
def w (n : Int) : Multiplicative Int := Multiplicative.ofAdd n

/-- Concrete submap states used by witnesses: one trajectory with two
submaps of local poses w 2 and w 5. -/
def wStates5 : List (List (SubmapState (Multiplicative Int))) :=
  [[⟨⟨10, w 2, false⟩, [], false⟩, ⟨⟨11, w 5, false⟩, [], true⟩]]

/-- Concrete optimized snapshot used by witnesses: trajectory 0 has one
optimized submap pose w 7. -/
def wSnap5 : List (List (SubmapData (Multiplicative Int))) := [[⟨w 7⟩]]

/-- Concrete submap handle 20 with local pose w 3. -/
def wSubA : Submap (Multiplicative Int) := ⟨20, w 3, false⟩

/-- Concrete submap handle 21 with local pose w 4. -/
def wSubB : Submap (Multiplicative Int) := ⟨21, w 4, false⟩

/-- Concrete state where both submaps are registered on trajectory 0 and
the optimizer holds one submap pose. -/
def wStateC6 : State (Multiplicative Int) Nat Nat :=
  { initState (Multiplicative Int) Nat Nat with
    submap_ids := [(20, ⟨0, 0⟩), (21, ⟨0, 1⟩)]
    opt_submap_data := [[⟨w 7⟩]] }

/-- Concrete environment with periodic optimization disabled. -/
def wEnv0 : Env Nat Nat Nat := ⟨fun c b => c + b, ⟨0, 5⟩⟩

/-- Concrete environment with a threshold of one scan. -/
def wEnv1 : Env Nat Nat Nat := ⟨fun c b => c + b, ⟨1, 5⟩⟩

/-- An empty matcher result batch. -/
def wMatcherEmpty : MatcherResult (Multiplicative Int) Nat := ⟨[]⟩

/-- Concrete input state for an optimization round: one optimized scan,
one later scan appended during the solve, one submap. -/
def wStateC2 : State (Multiplicative Int) Nat Nat :=
  { initState (Multiplicative Int) Nat Nat with
    trajectory_ids := [0]
    trajectory_nodes := [⟨0, 5, w 9⟩, ⟨0, 6, w 2⟩]
    scan_index_to_node_id := [⟨0, 0⟩]
    submap_states := [[⟨wSubA, [], false⟩]]
    opt_submap_data := [[⟨w 6⟩]]
    opt_node_data := [[⟨5, w 9⟩]]
    optimized_submap_transforms := [[⟨w 6⟩]] }

/-- Concrete solver output for the optimization round. -/
def wOracleC2 : SolveOracle (Multiplicative Int) :=
  ⟨[[⟨w 7⟩]], [[⟨5, w 11⟩]], []⟩

/-- The state the optimization round produces on the inputs above: the
optimized node pose copied back, the tail node extrapolated by
w 7 * (w 6)⁻¹ = w 1, and the snapshot refreshed. -/
def wStateC2res : State (Multiplicative Int) Nat Nat :=
  { wStateC2 with
    trajectory_nodes := [⟨0, 5, w 11⟩, ⟨0, 6, w 3⟩]
    opt_submap_data := [[⟨w 7⟩]]
    opt_node_data := [[⟨5, w 11⟩]]
    optimized_submap_transforms := [[⟨w 7⟩]] }

/-- Concrete state with one ingested scan on trajectory 0, one finished
submap, the optimizer data for both, and a never-firing sampler. -/
def wStateC3 : State (Multiplicative Int) Nat Nat :=
  { initState (Multiplicative Int) Nat Nat with
    trajectory_ids := [0]
    trajectory_nodes := [⟨0, 5, w 9⟩]
    scan_index_to_node_id := [⟨0, 0⟩]
    opt_submap_data := [[⟨w 7⟩]]
    opt_node_data := [[⟨5, w 9⟩]]
    submap_states := [[⟨wSubA, [], true⟩]]
    samplers := [(0, (fun _ => false, 0))] }

/-- Concrete state with one unfinished registered submap, ready for an
intra-constraint insertion. -/
def wStateC7 : State (Multiplicative Int) Nat Nat :=
  { initState (Multiplicative Int) Nat Nat with
    submap_ids := [(20, ⟨0, 0⟩)]
    submap_states := [[⟨wSubA, [], false⟩]] }

/-- The state after inserting node 0/0 into the submap above: the node id
recorded, one intra constraint with transform (w 3)⁻¹ * w 5 = w 2 and
sqrt-information 3 + 5 = 8 appended. -/
def wStateC7res : State (Multiplicative Int) Nat Nat :=
  { wStateC7 with
    submap_states := [[⟨wSubA, [⟨0, 0⟩], false⟩]]
    constraints := [⟨⟨0, 0⟩, ⟨0, 0⟩, ⟨w 2, 8⟩, ConstraintTag.INTRA_SUBMAP⟩] }

/-- Concrete submap handle 22, already finished on the front-end side. -/
def wSubF : Submap (Multiplicative Int) := ⟨22, w 4, true⟩

/-- Concrete never-firing sampler stream. -/
def wStr : Nat → Bool := fun _ => false

/-- Concrete state in deferred mode (queue allocated and empty), so an
ingested scan is buffered rather than executed. -/
def wStateC8A : State (Multiplicative Int) Nat Nat :=
  { initState (Multiplicative Int) Nat Nat with scan_queue := some [] }

/-- The result of ingesting one scan in the state above: trajectory
registered, node appended, new submap state allocated, sampler created,
and the work item buffered carrying the finished first submap. -/
def wC8Ares : State (Multiplicative Int) Nat Nat × List (Event (Multiplicative Int) Nat) :=
  ({ initState (Multiplicative Int) Nat Nat with
      trajectory_ids := [7]
      trajectory_nodes := [⟨0, 3, w 1⟩]
      connectivity := [0]
      submap_states := [[⟨wSubF, [], false⟩]]
      submap_ids := [(22, ⟨0, 0⟩)]
      samplers := [(0, (wStr, 0))]
      scan_queue := some [WorkItem.computeScan 0 wSubA [wSubF] (some wSubF) (w 1) 2] },
   [])

/-- Concrete state with one old scan already allocated and one registered
submap whose graph-side flag is still false. -/
def wStateC8 : State (Multiplicative Int) Nat Nat :=
  { initState (Multiplicative Int) Nat Nat with
    trajectory_ids := [0]
    trajectory_nodes := [⟨0, 5, w 9⟩]
    scan_index_to_node_id := [⟨0, 0⟩]
    submap_ids := [(20, ⟨0, 0⟩)]
    submap_states := [[⟨wSubA, [], false⟩]]
    opt_submap_data := [[⟨w 6⟩]]
    opt_node_data := [[⟨5, w 9⟩]] }

/-- The result of completing the submap above: the old scan is decided
against it, a local match is proposed at (w 6)⁻¹ * w 9 = w 3, and only then
is the flag set. -/
def wC8Br : State (Multiplicative Int) Nat Nat × List (Event (Multiplicative Int) Nat) :=
  ({ wStateC8 with submap_states := [[⟨wSubA, [], true⟩]] },
   [Event.decide 0 ⟨0, 0⟩, Event.proposeLocal ⟨0, 0⟩ ⟨0, 0⟩ 0 (w 3),
    Event.finishSubmap ⟨0, 0⟩])

/-- Concrete state whose counter is about to cross the threshold of
wEnv1. -/
def wStateT : State (Multiplicative Int) Nat Nat :=
  { initState (Multiplicative Int) Nat Nat with
    num_scans_since_last_loop_closure := 1 }

/-- The state after the end-of-scan trigger fires: counter bumped, pending
flag raised, queue allocated empty. -/
def wStateTres : State (Multiplicative Int) Nat Nat :=
  { initState (Multiplicative Int) Nat Nat with
    num_scans_since_last_loop_closure := 2
    run_loop_closure := true
    scan_queue := some [] }

section Theorems

variable {G Cov Info Bnd : Type} [Group G]

theorem drop_cons_inv {α : Type _} (l : List α) :
    ∀ (k : Nat) (st : α) (rest : List α),
    l.drop k = st :: rest → l.get? k = some st ∧ l.drop (k + 1) = rest := by
  induction l with
  | nil =>
    intro k st rest h
    rw [List.drop_nil] at h
    exact absurd h (by simp)
  | cons a l ih =>
    intro k st rest h
    cases k with
    | zero =>
      rw [List.drop_zero] at h
      injection h with h1 h2
      subst h1
      subst h2
      exact ⟨rfl, rfl⟩
    | succ k =>
      rw [List.drop_succ_cons] at h
      exact (ih k st rest h)

theorem list_getLastD_eq_getD {α : Type _} (l : List α) (d : α) :
    l.getLastD d = l.getD (l.length - 1) d := by
  rw [List.getLastD_eq_getLast?, List.getLast?_eq_get?, List.getD_eq_getD_get?]

theorem extrapGo_length (all : List (SubmapState G))
    (snap : List (List (SubmapData G))) (tid : Nat) :
    ∀ (rest : List (SubmapState G)) (result : List G),
    (extrapGo all snap tid rest result).length = result.length + rest.length := by
  intro rest
  induction rest with
  | nil => intro result; rfl
  | cons st rest2 ih =>
    intro result
    rw [extrapGo, ih]
    simp
    omega

theorem extrapGo_char (all : List (SubmapState G))
    (snap : List (List (SubmapData G))) (tid : Nat) :
    ∀ (rest : List (SubmapState G)) (result : List G),
    all.drop result.length = rest →
    (∀ j, j < result.length → extrapCharAt all snap tid result j) →
    ∀ j, j < (extrapGo all snap tid rest result).length →
    extrapCharAt all snap tid (extrapGo all snap tid rest result) j := by
  intro rest
  induction rest with
  | nil =>
    intro result _ hchar j hj
    rw [extrapGo] at hj ⊢
    exact hchar j hj
  | cons st rest2 ih =>
    intro result hdrop hchar j hj
    obtain ⟨hget, hdrop2⟩ := drop_cons_inv all result.length st rest2 hdrop
    have hstable : ∀ m, m < result.length →
        (result ++ [extrapNext all snap tid result st]).getD m 1 = result.getD m 1 :=
      fun m hm => List.getD_append _ _ _ _ hm
    have hxk : (result ++ [extrapNext all snap tid result st]).getD result.length 1 =
        extrapNext all snap tid result st := by
      rw [List.getD_append_right _ _ _ _ (le_refl result.length)]
      simp
    have hall_k : all.getD result.length submapStateD = st := by
      rw [List.getD_eq_getD_get?, hget]
      rfl
    have hchar' : ∀ j, j < (result ++ [extrapNext all snap tid result st]).length →
        extrapCharAt all snap tid (result ++ [extrapNext all snap tid result st]) j := by
      intro m hm
      simp only [List.length_append, List.length_cons, List.length_nil] at hm
      rcases Nat.lt_or_ge m result.length with hlt | hge
      · have h1 := hstable m hlt
        have h2 : (result ++ [extrapNext all snap tid result st]).getD (m - 1) 1 =
            result.getD (m - 1) 1 :=
          hstable (m - 1) (lt_of_le_of_lt (Nat.sub_le m 1) hlt)
        have hc := hchar m hlt
        simp only [extrapCharAt] at hc ⊢
        rw [h1, h2]
        exact hc
      · have hm_eq : m = result.length := by omega
        subst hm_eq
        by_cases hsnap : tid < snap.length ∧
            result.length < (snap.getD tid []).length
        · refine ⟨fun _ => ?_, fun hcon => absurd hsnap hcon⟩
          rw [hxk]
          rw [extrapNext, if_pos hsnap]
        · refine ⟨fun hcon => absurd hcon hsnap, fun _ => ⟨?_, ?_⟩⟩
          · intro hm0
            have hres : result = [] := List.length_eq_zero.mp hm0
            subst hres
            rw [hxk]
            rw [extrapNext, if_neg hsnap]
            rfl
          · intro hmpos
            have hne : ¬ (result.isEmpty = true) := by
              cases result with
              | nil => simp at hmpos
              | cons a r => simp
            rw [hstable (result.length - 1) (by omega), hall_k, hxk]
            rw [extrapNext, if_neg hsnap, if_neg hne, list_getLastD_eq_getD]
    rw [extrapGo]
    refine ih (result ++ [extrapNext all snap tid result st]) ?_ hchar' j ?_
    · simp only [List.length_append, List.length_cons, List.length_nil]
      rw [Nat.add_comm result.length 1, Nat.add_comm 1 result.length] at hdrop2 ⊢
      exact hdrop2
    · rw [extrapGo] at hj
      exact hj

/-- C5: ExtrapolateSubmapTransforms returns one global pose per known
submap state of the trajectory; positions for which the snapshot has an
entry are taken verbatim from the snapshot; each position beyond the
snapshot equals the previous result composed with the previous submap
local_pose inverse composed with this submap local_pose (identity when
there is no previous result); when the trajectory id is unknown or the
trajectory has no submap states, the result is the single-element list
containing identity. -/
theorem claim_C5 (submap_states : List (List (SubmapState G)))
    (snap : List (List (SubmapData G))) (tid : Nat) :
    (submap_states.length ≤ tid ∨ submap_states.getD tid [] = [] →
      extrapolateSubmapTransforms submap_states snap tid = [1]) ∧
    (tid < submap_states.length → submap_states.getD tid [] ≠ [] →
      (extrapolateSubmapTransforms submap_states snap tid).length =
        (submap_states.getD tid []).length ∧
      ∀ i, i < (submap_states.getD tid []).length →
        extrapCharAt (submap_states.getD tid []) snap tid
          (extrapolateSubmapTransforms submap_states snap tid) i) := by
  constructor
  · intro h
    rcases h with h | h
    · rw [extrapolateSubmapTransforms, if_pos h]
    · by_cases hlen : submap_states.length ≤ tid
      · rw [extrapolateSubmapTransforms, if_pos hlen]
      · simp only [extrapolateSubmapTransforms]
        rw [if_neg hlen, h]
        rfl
  · intro hlt hne
    have hlen0 := extrapGo_length (submap_states.getD tid []) snap tid
      (submap_states.getD tid []) []
    have hLne : (extrapGo (submap_states.getD tid []) snap tid
        (submap_states.getD tid []) []).isEmpty = false := by
      rw [List.isEmpty_eq_false]
      intro hnil
      rw [hnil] at hlen0
      exact hne (List.length_eq_zero.mp (by simpa using hlen0.symm))
    have hunf : extrapolateSubmapTransforms submap_states snap tid =
        extrapGo (submap_states.getD tid []) snap tid
          (submap_states.getD tid []) [] := by
      simp only [extrapolateSubmapTransforms]
      rw [if_neg (not_le.mpr hlt), hLne]
      rfl
    constructor
    · rw [hunf, hlen0]
      simp
    · intro i hi
      rw [hunf]
      refine extrapGo_char (submap_states.getD tid []) snap tid
        (submap_states.getD tid []) [] (by simp) (by intro j hj; simp at hj) i ?_
      rw [hlen0]
      simpa using hi

/-- C5 witness: the characterization evaluated on a concrete trajectory
with two submap states and a one-entry snapshot. -/
theorem claim_C5_witness :
    ((0 : Nat) < wStates5.length ∧ wStates5.getD 0 [] ≠ []) ∧
    (extrapolateSubmapTransforms wStates5 wSnap5 0).length =
      (wStates5.getD 0 []).length ∧
    extrapCharAt (wStates5.getD 0 []) wSnap5 0
      (extrapolateSubmapTransforms wStates5 wSnap5 0) 1 := by
  have h := (claim_C5 wStates5 wSnap5 0).2 (by decide) (by decide)
  exact ⟨⟨by decide, by decide⟩, h.1, h.2 1 (by decide)⟩

/-- C4: for a trajectory handle that has never been registered,
GetLocalToGlobalTransform returns the identity transform.  The front-end
Submaps collection is external code; per the spec (first-scan boot), its
first submap has the identity local pose, which is the hboot
hypothesis. -/
theorem claim_C4 (s : State G Cov Info) (submaps_local_pose : Nat → G)
    (trajectory_handle : Nat)
    (hreg : handleId trajectory_handle s.trajectory_ids = none)
    (hboot : submaps_local_pose 0 = 1) :
    getLocalToGlobalTransform s submaps_local_pose trajectory_handle = 1 := by
  unfold getLocalToGlobalTransform getSubmapTransforms
  rw [hreg]
  simp [hboot]

/-- C4 witness: the freshly constructed pose graph with a boot collection
whose submap 0 is at identity. -/
theorem claim_C4_witness :
    handleId 0 (initState (Multiplicative Int) Nat Nat).trajectory_ids = none ∧
    (fun _ : Nat => (1 : Multiplicative Int)) 0 = 1 ∧
    getLocalToGlobalTransform (initState (Multiplicative Int) Nat Nat)
      (fun _ => 1) 0 = 1 :=
  ⟨rfl, rfl, claim_C4 (initState (Multiplicative Int) Nat Nat) (fun _ => 1) 0 rfl rfl⟩

theorem listModify_get?_eq {α : Type _} (f : α → α) :
    ∀ (l : List α) (t : Nat) (x : α), l.get? t = some x →
    (listModify f t l).get? t = some (f x) := by
  intro l
  induction l with
  | nil => intro t x h; simp at h
  | cons hd tl ih =>
    intro t x h
    cases t with
    | zero =>
      simp only [List.get?] at h
      injection h with h
      subst h
      rfl
    | succ t2 =>
      simp only [List.get?] at h
      simp only [listModify, List.get?]
      exact ih t2 x h

theorem listModify_get?_ne {α : Type _} (f : α → α) :
    ∀ (l : List α) (t u : Nat), u ≠ t →
    (listModify f t l).get? u = l.get? u := by
  intro l
  induction l with
  | nil => intro t u _; cases t <;> rfl
  | cons hd tl ih =>
    intro t u hu
    cases t with
    | zero =>
      cases u with
      | zero => exact absurd rfl hu
      | succ u2 => rfl
    | succ t2 =>
      cases u with
      | zero => rfl
      | succ u2 =>
        simp only [listModify, List.get?]
        exact ih t2 u2 (fun hc => hu (by rw [hc]))

theorem padTo_eq_of_le {α : Type _} (l : List (List α)) (n : Nat)
    (h : n ≤ l.length) : padTo l n = l := by
  simp only [padTo]
  rw [Nat.sub_eq_zero_of_le h]
  simp

/-- C6: with two insertion submaps, if the second submap index equals the
current length of the trajectory submap list in the optimizer, exactly one
optimizer submap is appended for that trajectory, with initial pose
first_global * first_local inverse * second_local; if the second index is
an existing index, the state is returned entirely unchanged. -/
theorem claim_C6 (s : State G Cov Info) (a b : Submap G) (t ia ib : Nat)
    (td : List (SubmapData G))
    (hga : getSubmapId s a = some ⟨t, ia⟩)
    (hgb : getSubmapId s b = some ⟨t, ib⟩)
    (htd : s.opt_submap_data.get? t = some td)
    (hib : ib ≤ td.length) :
    (ib = td.length → ∀ fp, td.get? ia = some fp →
      ∃ s1, growSubmapTransformsAsNeeded s [a, b] = some s1 ∧
        s1.opt_submap_data.get? t =
          some (td ++ [⟨fp.pose * a.local_pose⁻¹ * b.local_pose⟩]) ∧
        (∀ u, u ≠ t → s1.opt_submap_data.get? u = s.opt_submap_data.get? u) ∧
        s1 = { s with opt_submap_data := s1.opt_submap_data }) ∧
    (ib < td.length → growSubmapTransformsAsNeeded s [a, b] = some s) := by
  have hlt : t < s.opt_submap_data.length := by
    by_contra hc
    rw [List.get?_eq_none.mpr (Nat.le_of_not_lt hc)] at htd
    exact Option.noConfusion htd
  have htd2 : s.opt_submap_data[t]? = some td := by
    rw [← List.get?_eq_getElem?]
    exact htd
  constructor
  · intro heq fp hfp
    have hfp2 : td[ia]? = some fp := by
      rw [← List.get?_eq_getElem?]
      exact hfp
    refine ⟨{ s with opt_submap_data := optAddSubmap s.opt_submap_data t (fp.pose * a.local_pose⁻¹ * b.local_pose) }, ?_, ?_, ?_, rfl⟩
    · simp [growSubmapTransformsAsNeeded, hga, hgb, htd2, heq, hfp2, hib, guard]
    · simp only [optAddSubmap]
      rw [padTo_eq_of_le _ _ hlt]
      exact listModify_get?_eq _ _ _ _ htd
    · intro u hu
      simp only [optAddSubmap]
      rw [padTo_eq_of_le _ _ hlt]
      exact listModify_get?_ne _ _ _ _ hu
  · intro hltib
    simp [growSubmapTransformsAsNeeded, hga, hgb, htd2, hib, guard,
      Nat.ne_of_lt hltib]

/-- C6 witness: a second submap one past the tail of a one-entry
optimizer trajectory gets appended with the composed pose. -/
theorem claim_C6_witness :
    ∃ s1, growSubmapTransformsAsNeeded wStateC6 [wSubA, wSubB] = some s1 ∧
      s1.opt_submap_data.get? 0 = some ([⟨w 7⟩] ++ [⟨w 7 * (w 3)⁻¹ * w 4⟩]) ∧
      (∀ u, u ≠ 0 → s1.opt_submap_data.get? u = wStateC6.opt_submap_data.get? u) ∧
      s1 = { wStateC6 with opt_submap_data := s1.opt_submap_data } :=
  (claim_C6 wStateC6 wSubA wSubB 0 0 1 [⟨w 7⟩] rfl rfl rfl (by decide)).1
    rfl ⟨w 7⟩ rfl

/-- C3: the candidate constraint decision for a scan against a finished
submap: different trajectories with a firing sampler propose a global
match without a pose prior; equal or currently connected trajectories
propose a local match whose prior is the optimizer submap pose inverse
composed with the optimizer node pose; different, unconnected trajectories
with a non-firing sampler propose nothing. -/
theorem claim_C3 (s : State G Cov Info) (scan_index : Nat)
    (submap_id : SubmapId) (node_id : NodeId) (sd : SubmapData G)
    (nd : NodeData G) (scan_node : TrajectoryNode G) (f : Nat → Bool)
    (cnt : Nat) (st : SubmapState G)
    (hn : s.scan_index_to_node_id.get? scan_index = some node_id)
    (hsd : optSubmapAt s.opt_submap_data submap_id = some sd)
    (hnd : optNodeAt s.opt_node_data node_id = some nd)
    (hsc : s.trajectory_nodes.get? scan_index = some scan_node)
    (hsam : s.samplers.lookup scan_node.trajectory_id = some (f, cnt))
    (hst : stateAt s submap_id = some st) :
    (scan_node.trajectory_id ≠ submap_id.trajectory_id → f cnt = true →
      computeConstraint s scan_index submap_id =
        some ({ s with samplers := bumpSampler s.samplers scan_node.trajectory_id },
          [Event.decide scan_index submap_id,
           Event.proposeGlobal submap_id node_id scan_index])) ∧
    (scan_node.trajectory_id = submap_id.trajectory_id →
      computeConstraint s scan_index submap_id =
        some (s, [Event.decide scan_index submap_id,
          Event.proposeLocal submap_id node_id scan_index
            (sd.pose⁻¹ * nd.point_cloud_pose)])) ∧
    (scan_node.trajectory_id ≠ submap_id.trajectory_id → f cnt = false →
      ((s.reverse_connected_components.lookup scan_node.trajectory_id).isSome = true ∧
        (s.reverse_connected_components.lookup submap_id.trajectory_id).isSome = true ∧
        s.reverse_connected_components.lookup scan_node.trajectory_id =
          s.reverse_connected_components.lookup submap_id.trajectory_id) →
      computeConstraint s scan_index submap_id =
        some ({ s with samplers := bumpSampler s.samplers scan_node.trajectory_id },
          [Event.decide scan_index submap_id,
           Event.proposeLocal submap_id node_id scan_index
             (sd.pose⁻¹ * nd.point_cloud_pose)])) ∧
    (scan_node.trajectory_id ≠ submap_id.trajectory_id → f cnt = false →
      ¬ ((s.reverse_connected_components.lookup scan_node.trajectory_id).isSome = true ∧
        (s.reverse_connected_components.lookup submap_id.trajectory_id).isSome = true ∧
        s.reverse_connected_components.lookup scan_node.trajectory_id =
          s.reverse_connected_components.lookup submap_id.trajectory_id) →
      computeConstraint s scan_index submap_id =
        some ({ s with samplers := bumpSampler s.samplers scan_node.trajectory_id },
          [Event.decide scan_index submap_id])) := by
  have hbump : stateAt { s with samplers := bumpSampler s.samplers scan_node.trajectory_id } submap_id = some st := hst
  refine ⟨?_, ?_, ?_, ?_⟩
  · intro hne hf
    simp only [computeConstraint, hn, hsd, hnd, hsc, Option.bind_eq_bind, Option.pure_def, Option.some_bind]
    rw [if_pos hne]
    simp only [pulse, hsam, Option.bind_eq_bind, Option.pure_def, Option.some_bind]
    rw [hf]
    rw [if_pos rfl]
    simp only [hbump, Option.bind_eq_bind, Option.pure_def, Option.some_bind]
  · intro heq
    simp only [computeConstraint, hn, hsd, hnd, hsc, Option.bind_eq_bind, Option.pure_def, Option.some_bind]
    rw [if_neg (fun hc => hc heq)]
    simp only [computeConstraintElse]
    rw [if_pos (Or.inl heq)]
    simp only [hst, Option.bind_eq_bind, Option.pure_def, Option.some_bind]
  · intro hne hf hconn
    simp only [computeConstraint, hn, hsd, hnd, hsc, Option.bind_eq_bind, Option.pure_def, Option.some_bind]
    rw [if_pos hne]
    simp only [pulse, hsam, Option.bind_eq_bind, Option.pure_def, Option.some_bind]
    rw [hf]
    simp only [Bool.false_eq_true, if_false]
    simp only [computeConstraintElse]
    rw [if_pos (Or.inr hconn)]
    simp only [hbump, Option.bind_eq_bind, Option.pure_def, Option.some_bind]
  · intro hne hf hnconn
    simp only [computeConstraint, hn, hsd, hnd, hsc, Option.bind_eq_bind, Option.pure_def, Option.some_bind]
    rw [if_pos hne]
    simp only [pulse, hsam, Option.bind_eq_bind, Option.pure_def, Option.some_bind]
    rw [hf]
    simp only [Bool.false_eq_true, if_false]
    simp only [computeConstraintElse]
    rw [if_neg ?hcond]
    case hcond =>
      intro hc
      rcases hc with hc | hc
      · exact hne hc
      · exact hnconn hc
    rfl

/-- C3 witness: a scan and a finished submap of the same trajectory get a
local match proposal anchored at the optimizer prior. -/
theorem claim_C3_witness :
    computeConstraint wStateC3 0 ⟨0, 0⟩ =
      some (wStateC3, [Event.decide 0 ⟨0, 0⟩,
        Event.proposeLocal ⟨0, 0⟩ ⟨0, 0⟩ 0 ((w 7)⁻¹ * w 9)]) :=
  (claim_C3 wStateC3 0 ⟨0, 0⟩ ⟨0, 0⟩ ⟨w 7⟩ ⟨5, w 9⟩ ⟨0, 5, w 9⟩
    (fun _ => false) 0 ⟨wSubA, [], true⟩ rfl rfl rfl rfl rfl rfl).2.1 rfl

theorem get?_set_self {α : Type _} (l : List α) (i : Nat) (a : α)
    (h : i < l.length) : (l.set i a).get? i = some a := by
  rw [List.get?_eq_getElem?]
  exact List.getElem?_set_self h

theorem get?_set_ne {α : Type _} (l : List α) (i j : Nat) (a : α)
    (h : i ≠ j) : (l.set i a).get? j = l.get? j := by
  rw [List.get?_eq_getElem?, List.get?_eq_getElem?]
  exact List.getElem?_set_ne h

theorem lookup_mem {β : Type _} : ∀ (l : List (Nat × β)) (k : Nat) (v : β),
    l.lookup k = some v → (k, v) ∈ l := by
  intro l
  induction l with
  | nil => intro k v h; simp [List.lookup] at h
  | cons p rest ih =>
    intro k v h
    cases p with
    | mk k1 b =>
      simp only [List.lookup] at h
      cases hbeq : (k == k1) with
      | true =>
        rw [hbeq] at h
        injection h with h
        subst h
        have heq2 : k = k1 := by simpa using hbeq
        subst heq2
        exact List.mem_cons_self _ _
      | false =>
        rw [hbeq] at h
        exact List.mem_cons_of_mem _ (ih k v h)

theorem copyOptimizedPoses_spec (nd : List (List (NodeData G))) :
    ∀ (l : List Nat) (s s2 : State G Cov Info),
    copyOptimizedPoses nd s l = some s2 → l.Nodup →
    (s2 = { s with trajectory_nodes := s2.trajectory_nodes } ∧
     s2.trajectory_nodes.length = s.trajectory_nodes.length) ∧
    (∀ j, j ∉ l → s2.trajectory_nodes.get? j = s.trajectory_nodes.get? j) ∧
    (∀ j, j ∈ l → ∃ nid d node,
      s.scan_index_to_node_id.get? j = some nid ∧
      optNodeAt nd nid = some d ∧
      s.trajectory_nodes.get? j = some node ∧
      s2.trajectory_nodes.get? j = some { node with pose := d.point_cloud_pose }) := by
  intro l
  induction l with
  | nil =>
    intro s s2 h _
    simp only [copyOptimizedPoses] at h
    injection h with h
    subst h
    exact ⟨⟨rfl, rfl⟩, fun j _ => rfl, fun j hj => absurd hj (List.not_mem_nil j)⟩
  | cons i rest ih =>
    intro s s2 h hnd
    simp only [copyOptimizedPoses, Option.bind_eq_bind, Option.bind_eq_some] at h
    obtain ⟨nid, hnid, d, hd, node, hnode, hrec⟩ := h
    have hnodup_rest : rest.Nodup := (List.nodup_cons.mp hnd).2
    have hi_rest : i ∉ rest := (List.nodup_cons.mp hnd).1
    have hlen_i : i < s.trajectory_nodes.length := by
      by_contra hc
      rw [List.get?_eq_none.mpr (Nat.le_of_not_lt hc)] at hnode
      exact Option.noConfusion hnode
    obtain ⟨⟨hframe, hlen⟩, hout, hin⟩ := ih _ s2 hrec hnodup_rest
    refine ⟨⟨hframe, by rw [hlen]; simp⟩, ?_, ?_⟩
    · intro j hj
      have hji : i ≠ j := fun hc => hj (hc ▸ List.mem_cons_self i rest)
      have hjr : j ∉ rest := fun hc => hj (List.mem_cons_of_mem i hc)
      rw [hout j hjr]
      exact get?_set_ne _ _ _ _ hji
    · intro j hj
      rcases List.mem_cons.mp hj with hj | hj
      · subst hj
        refine ⟨nid, d, node, hnid, hd, hnode, ?_⟩
        rw [hout j hi_rest]
        exact get?_set_self _ _ _ hlen_i
      · obtain ⟨nid2, d2, node2, h1, h2, h3, h4⟩ := hin j hj
        have hji : i ≠ j := fun hc => hi_rest (hc ▸ hj)
        rw [get?_set_ne _ _ _ _ hji] at h3
        exact ⟨nid2, d2, node2, h1, h2, h3, h4⟩

theorem extrapolateTail_spec :
    ∀ (l : List Nat) (s s2 : State G Cov Info) (cache : List (Nat × G)),
    extrapolateTail s l cache = some s2 →
    (∀ p, p ∈ cache → p.2 = extrapolationTransform s p.1) →
    l.Nodup →
    (s2 = { s with trajectory_nodes := s2.trajectory_nodes } ∧
     s2.trajectory_nodes.length = s.trajectory_nodes.length) ∧
    (∀ j, j ∉ l → s2.trajectory_nodes.get? j = s.trajectory_nodes.get? j) ∧
    (∀ j, j ∈ l → ∃ node, s.trajectory_nodes.get? j = some node ∧
      s2.trajectory_nodes.get? j = some { node with pose := extrapolationTransform s node.trajectory_id * node.pose }) := by
  intro l
  induction l with
  | nil =>
    intro s s2 cache h _ _
    simp only [extrapolateTail] at h
    injection h with h
    subst h
    exact ⟨⟨rfl, rfl⟩, fun j _ => rfl, fun j hj => absurd hj (List.not_mem_nil j)⟩
  | cons i rest ih =>
    intro s s2 cache h hcache hnd
    simp only [extrapolateTail, Option.bind_eq_bind, Option.bind_eq_some] at h
    obtain ⟨node, hnode, h⟩ := h
    have hnodup_rest : rest.Nodup := (List.nodup_cons.mp hnd).2
    have hi_rest : i ∉ rest := (List.nodup_cons.mp hnd).1
    have hlen_i : i < s.trajectory_nodes.length := by
      by_contra hc
      rw [List.get?_eq_none.mpr (Nat.le_of_not_lt hc)] at hnode
      exact Option.noConfusion hnode
    have hstep : ∃ e cache1, e = extrapolationTransform s node.trajectory_id ∧
        (∀ p, p ∈ cache1 → p.2 = extrapolationTransform s p.1) ∧
        extrapolateTail { s with trajectory_nodes := s.trajectory_nodes.set i { node with pose := e * node.pose } } rest cache1 = some s2 := by
      revert h
      cases hl : cache.lookup node.trajectory_id with
      | some e =>
        intro h
        exact ⟨e, cache, hcache _ (lookup_mem cache node.trajectory_id e hl),
          hcache, h⟩
      | none =>
        intro h
        by_cases hck : (extrapolateSubmapTransforms s.submap_states
            s.opt_submap_data node.trajectory_id).length =
            (extrapolateSubmapTransforms s.submap_states
              s.optimized_submap_transforms node.trajectory_id).length
        · rw [if_pos hck] at h
          refine ⟨extrapolationTransform s node.trajectory_id,
            cache ++ [(node.trajectory_id, extrapolationTransform s node.trajectory_id)],
            rfl, ?_, h⟩
          intro p hp
          rcases List.mem_append.mp hp with hp | hp
          · exact hcache p hp
          · rw [List.mem_singleton.mp hp]
        · rw [if_neg hck] at h
          exact absurd h (by simp)
    obtain ⟨e, cache1, he, hc1, hrec⟩ := hstep
    obtain ⟨⟨hframe, hlen⟩, hout, hin⟩ := ih _ s2 cache1 hrec hc1 hnodup_rest
    refine ⟨⟨hframe, by rw [hlen]; simp⟩, ?_, ?_⟩
    · intro j hj
      have hji : i ≠ j := fun hc => hj (hc ▸ List.mem_cons_self i rest)
      have hjr : j ∉ rest := fun hc => hj (List.mem_cons_of_mem i hc)
      rw [hout j hjr]
      exact get?_set_ne _ _ _ _ hji
    · intro j hj
      rcases List.mem_cons.mp hj with hj | hj
      · subst hj
        refine ⟨node, hnode, ?_⟩
        rw [hout j hi_rest, get?_set_self _ _ _ hlen_i, he]
      · obtain ⟨node2, h3, h4⟩ := hin j hj
        have hji : i ≠ j := fun hc => hi_rest (hc ▸ hj)
        rw [get?_set_ne _ _ _ _ hji] at h3
        exact ⟨node2, h3, h4⟩

/-- C2: after a solve, every scan index below the number of NodeIds
allocated at solve time has its pose overwritten with the optimizer
post-solve pose for its NodeId, and every node appended after that point
has its pose left-multiplied by the per-trajectory extrapolation transform
new_submap_tail * old_submap_tail inverse, computed from
ExtrapolateSubmapTransforms over the new optimizer submap data and over
the previous optimized snapshot. -/
theorem claim_C2 (o : SolveOracle G) (s s2 : State G Cov Info)
    (ev : List (Event G Cov))
    (hne : s.opt_submap_data.isEmpty = false)
    (h : runOptimization o s = some (s2, ev)) :
    (∀ i, i < s.scan_index_to_node_id.length →
      ∃ nid d node, s.scan_index_to_node_id.get? i = some nid ∧
        optNodeAt o.node_data nid = some d ∧
        s.trajectory_nodes.get? i = some node ∧
        s2.trajectory_nodes.get? i = some { node with pose := d.point_cloud_pose }) ∧
    (∀ i, s.scan_index_to_node_id.length ≤ i → i < s.trajectory_nodes.length →
      ∃ node, s.trajectory_nodes.get? i = some node ∧
        s2.trajectory_nodes.get? i = some { node with pose := ((extrapolateSubmapTransforms s.submap_states o.submap_data node.trajectory_id).getLastD 1 * ((extrapolateSubmapTransforms s.submap_states s.optimized_submap_transforms node.trajectory_id).getLastD 1)⁻¹) * node.pose }) := by
  simp only [runOptimization] at h
  split at h
  · next hcond =>
    rw [hne] at hcond
    exact Bool.noConfusion hcond
  · simp only [Option.bind_eq_bind, Option.bind_eq_some, Option.pure_def,
      Option.some.injEq, Prod.mk.injEq] at h
    obtain ⟨s_c, hcopy, s3, htail, hfin1, hfin2⟩ := h
    have hs2 : s2 = { s3 with optimized_submap_transforms := s3.opt_submap_data, connected_components := o.components, reverse_connected_components := buildReverse o.components } := hfin1.symm
    have hs2tn : s2.trajectory_nodes = s3.trajectory_nodes := by rw [hs2]
    obtain ⟨⟨hcf, hcl⟩, hcout, hcin⟩ :=
      copyOptimizedPoses_spec _ _ _ _ hcopy (List.nodup_range _)
    obtain ⟨⟨htf, htl⟩, htout, htin⟩ :=
      extrapolateTail_spec _ _ _ _ htail
        (fun p hp => absurd hp (List.not_mem_nil p)) (List.nodup_range' _ _)
    constructor
    · intro i hi
      obtain ⟨nid, d, node, h1, h2, h3, h4⟩ := hcin i (List.mem_range.mpr hi)
      refine ⟨nid, d, node, h1, h2, h3, ?_⟩
      have hnoti : i ∉ List.range' s.scan_index_to_node_id.length
          (s_c.trajectory_nodes.length - s.scan_index_to_node_id.length) := by
        rw [List.mem_range'_1]
        omega
      rw [hs2tn, htout i hnoti, h4]
    · intro i hge hlt
      have hclen : s_c.trajectory_nodes.length = s.trajectory_nodes.length := hcl
      have hmem : i ∈ List.range' s.scan_index_to_node_id.length
          (s_c.trajectory_nodes.length - s.scan_index_to_node_id.length) := by
        rw [List.mem_range'_1, hclen]
        omega
      obtain ⟨node, h3, h4⟩ := htin i hmem
      have hnotr : i ∉ List.range s.scan_index_to_node_id.length := by
        rw [List.mem_range]
        omega
      rw [hcout i hnotr] at h3
      refine ⟨node, h3, ?_⟩
      have hE : extrapolationTransform s_c node.trajectory_id =
          (extrapolateSubmapTransforms s.submap_states o.submap_data node.trajectory_id).getLastD 1 * ((extrapolateSubmapTransforms s.submap_states s.optimized_submap_transforms node.trajectory_id).getLastD 1)⁻¹ := by
        rw [hcf]
        rfl
      rw [hs2tn, h4, hE]

/-- C2 witness: one solve with one optimized node, one tail node, and a
refreshed snapshot, evaluated on concrete data. -/
theorem claim_C2_witness :
    wStateC2.opt_submap_data.isEmpty = false ∧
    (∃ nid d node, wStateC2.scan_index_to_node_id.get? 0 = some nid ∧
      optNodeAt wOracleC2.node_data nid = some d ∧
      wStateC2.trajectory_nodes.get? 0 = some node ∧
      wStateC2res.trajectory_nodes.get? 0 = some { node with pose := d.point_cloud_pose }) ∧
    (∃ node, wStateC2.trajectory_nodes.get? 1 = some node ∧
      wStateC2res.trajectory_nodes.get? 1 = some { node with pose := ((extrapolateSubmapTransforms wStateC2.submap_states wOracleC2.submap_data node.trajectory_id).getLastD 1 * ((extrapolateSubmapTransforms wStateC2.submap_states wStateC2.optimized_submap_transforms node.trajectory_id).getLastD 1)⁻¹) * node.pose }) := by
  have h := claim_C2 wOracleC2 wStateC2 wStateC2res [Event.solve] rfl rfl
  exact ⟨rfl, h.1 0 (by decide), h.2 1 (by decide) (by decide)⟩

theorem pulse_frame (s : State G Cov Info) (tid : Nat) (r : Bool × State G Cov Info)
    (h : pulse s tid = some r) : r.2 = { s with samplers := r.2.samplers } := by
  simp only [pulse] at h
  revert h
  cases hl : s.samplers.lookup tid with
  | none => intro h; exact Option.noConfusion h
  | some p =>
    intro h
    injection h with h
    subst h
    rfl

theorem computeConstraintElse_frame (s : State G Cov Info) (i : Nat)
    (sid : SubmapId) (nid : NodeId) (rp : G) (stid : Nat)
    (r : State G Cov Info × List (Event G Cov))
    (h : computeConstraintElse s i sid nid rp stid = some r) : r.1 = s := by
  simp only [computeConstraintElse] at h
  split at h
  · simp only [Option.bind_eq_bind, Option.bind_eq_some, Option.some.injEq] at h
    obtain ⟨st, hst, h⟩ := h
    rw [← h]
  · injection h with h
    rw [← h]

theorem computeConstraint_frame (s : State G Cov Info) (i : Nat)
    (sid : SubmapId) (r : State G Cov Info × List (Event G Cov))
    (h : computeConstraint s i sid = some r) :
    r.1 = { s with samplers := r.1.samplers } := by
  unfold computeConstraint at h
  cases hnid : s.scan_index_to_node_id.get? i with
  | none => rw [hnid] at h; exact Option.noConfusion h
  | some nid =>
  rw [hnid] at h
  simp only [Option.bind_eq_bind, Option.some_bind] at h
  cases hsd : optSubmapAt s.opt_submap_data sid with
  | none => rw [hsd] at h; exact Option.noConfusion h
  | some sd =>
  rw [hsd] at h
  simp only [Option.some_bind] at h
  cases hnd : optNodeAt s.opt_node_data nid with
  | none => rw [hnd] at h; exact Option.noConfusion h
  | some nd =>
  rw [hnd] at h
  simp only [Option.some_bind] at h
  cases hnode : s.trajectory_nodes.get? i with
  | none => rw [hnode] at h; exact Option.noConfusion h
  | some node =>
  rw [hnode] at h
  simp only [Option.some_bind] at h
  by_cases hcond : node.trajectory_id ≠ sid.trajectory_id
  · rw [if_pos hcond] at h
    cases hpr : pulse s node.trajectory_id with
    | none => rw [hpr] at h; exact Option.noConfusion h
    | some pr =>
    rw [hpr] at h
    simp only [Option.some_bind] at h
    have hpf := pulse_frame s node.trajectory_id pr hpr
    by_cases hfire : pr.1 = true
    · rw [if_pos hfire] at h
      cases hst : stateAt pr.2 sid with
      | none => rw [hst] at h; exact Option.noConfusion h
      | some st =>
      rw [hst] at h
      simp only [Option.some_bind] at h
      injection h with h
      rw [← h]
      exact hpf
    · rw [if_neg hfire] at h
      cases hce : computeConstraintElse pr.2 i sid nid
          (sd.pose⁻¹ * nd.point_cloud_pose) node.trajectory_id with
      | none => rw [hce] at h; exact Option.noConfusion h
      | some r2 =>
      rw [hce] at h
      simp only [Option.some_bind] at h
      injection h with h
      rw [← h]
      rw [computeConstraintElse_frame _ _ _ _ _ _ _ hce]
      exact hpf
  · rw [if_neg hcond] at h
    cases hce : computeConstraintElse s i sid nid
        (sd.pose⁻¹ * nd.point_cloud_pose) node.trajectory_id with
    | none => rw [hce] at h; exact Option.noConfusion h
    | some r2 =>
    rw [hce] at h
    simp only [Option.some_bind] at h
    injection h with h
    rw [← h]
    rw [computeConstraintElse_frame _ _ _ _ _ _ _ hce]

theorem matchAgainstFinished_frame (nid : NodeId) (i : Nat) :
    ∀ (l : List SubmapId) (s : State G Cov Info)
    (r : State G Cov Info × List (Event G Cov)),
    matchAgainstFinished nid i s l = some r →
    r.1 = { s with samplers := r.1.samplers } := by
  intro l
  induction l with
  | nil =>
    intro s r h
    simp only [matchAgainstFinished, Option.some.injEq] at h
    rw [← h]
  | cons id rest ih =>
    intro s r h
    simp only [matchAgainstFinished, Option.bind_eq_bind, Option.bind_eq_some,
      Option.pure_def, Option.some.injEq] at h
    obtain ⟨st, hst, _, _, r1, h1, r2, h2, hr⟩ := h
    have e1 := computeConstraint_frame _ _ _ _ h1
    have e2 := ih _ _ h2
    have hr1 : r.1 = r2.1 := by rw [← hr]
    rw [hr1]
    rw [e1] at e2
    exact e2

theorem oldScanLoop_frame (sid : SubmapId) (node_ids : List NodeId) :
    ∀ (l : List Nat) (s : State G Cov Info)
    (r : State G Cov Info × List (Event G Cov)),
    oldScanLoop sid node_ids s l = some r →
    r.1 = { s with samplers := r.1.samplers } := by
  intro l
  induction l with
  | nil =>
    intro s r h
    simp only [oldScanLoop, Option.some.injEq] at h
    rw [← h]
  | cons i rest ih =>
    intro s r h
    unfold oldScanLoop at h
    cases hnid : s.scan_index_to_node_id.get? i with
    | none => rw [hnid] at h; exact Option.noConfusion h
    | some nid =>
    rw [hnid] at h
    simp only [Option.bind_eq_bind, Option.some_bind] at h
    by_cases hmem : nid ∈ node_ids
    · rw [if_pos hmem] at h
      exact ih _ _ h
    · rw [if_neg hmem] at h
      cases h1 : computeConstraint s i sid with
      | none => rw [h1] at h; exact Option.noConfusion h
      | some r1 =>
      rw [h1] at h
      simp only [Option.some_bind] at h
      cases h2 : oldScanLoop sid node_ids r1.1 rest with
      | none => rw [h2] at h; exact Option.noConfusion h
      | some r2 =>
      rw [h2] at h
      simp only [Option.some_bind] at h
      injection h with h
      have e1 := computeConstraint_frame _ _ _ _ h1
      have e2 := ih _ _ h2
      rw [← h]
      rw [e1] at e2
      exact e2

theorem computeConstraintsForOldScans_frame (s : State G Cov Info)
    (submap : Submap G) (r : State G Cov Info × List (Event G Cov))
    (h : computeConstraintsForOldScans s submap = some r) :
    r.1 = { s with samplers := r.1.samplers } := by
  simp only [computeConstraintsForOldScans, Option.bind_eq_bind,
    Option.bind_eq_some] at h
  obtain ⟨sid, hsid, st, hst, h⟩ := h
  exact oldScanLoop_frame _ _ _ _ _ h

theorem addIntraConstraints_frame (env : Env Cov Info Bnd) (nid : NodeId)
    (pose : G) (cov : Cov) :
    ∀ (l : List (Submap G)) (s s1 : State G Cov Info),
    addIntraConstraints env nid pose cov s l = some s1 →
    s1 = { s with submap_states := s1.submap_states, constraints := s1.constraints } := by
  intro l
  induction l with
  | nil =>
    intro s s1 h
    simp only [addIntraConstraints, Option.some.injEq] at h
    rw [← h]
  | cons submap rest ih =>
    intro s s1 h
    simp only [addIntraConstraints, Option.bind_eq_bind, Option.bind_eq_some] at h
    obtain ⟨sid, hsid, st, hst, _, _, h⟩ := h
    have e := ih _ _ h
    exact e

theorem growSubmapTransformsAsNeeded_frame (s s1 : State G Cov Info)
    (ins : List (Submap G)) (h : growSubmapTransformsAsNeeded s ins = some s1) :
    s1 = { s with opt_submap_data := s1.opt_submap_data } := by
  unfold growSubmapTransformsAsNeeded at h
  cases hh : ins.head? with
  | none => rw [hh] at h; exact Option.noConfusion h
  | some first =>
  rw [hh] at h
  simp only [Option.bind_eq_bind, Option.some_bind] at h
  cases hfid : getSubmapId s first with
  | none => rw [hfid] at h; exact Option.noConfusion h
  | some fid =>
  rw [hfid] at h
  simp only [Option.some_bind] at h
  by_cases hlen : ins.length = 1
  · rw [if_pos hlen] at h
    by_cases hg : fid.submap_index = 0
    · simp only [guard, if_pos hg, Option.pure_def, Option.some_bind] at h
      by_cases hc2 : s.opt_submap_data.length ≤ fid.trajectory_id ∨
          (s.opt_submap_data.getD fid.trajectory_id []).isEmpty = true
      · rw [if_pos hc2] at h
        injection h with h
        rw [← h]
      · rw [if_neg hc2] at h
        injection h with h
        rw [← h]
    · simp only [guard, if_neg hg] at h
      exact Option.noConfusion h
  · rw [if_neg hlen] at h
    by_cases hg2 : ins.length = 2
    · simp only [guard, if_pos hg2, Option.pure_def, Option.some_bind] at h
      cases htd : s.opt_submap_data.get? fid.trajectory_id with
      | none => rw [htd] at h; exact Option.noConfusion h
      | some td =>
      rw [htd] at h
      simp only [Option.some_bind] at h
      cases hb : ins.get? 1 with
      | none => rw [hb] at h; exact Option.noConfusion h
      | some second =>
      rw [hb] at h
      simp only [Option.some_bind] at h
      cases hsid : getSubmapId s second with
      | none => rw [hsid] at h; exact Option.noConfusion h
      | some sid2 =>
      rw [hsid] at h
      simp only [Option.some_bind] at h
      by_cases hg3 : sid2.trajectory_id = fid.trajectory_id
      · simp only [guard, if_pos hg3, Option.pure_def, Option.some_bind] at h
        by_cases hg4 : sid2.submap_index ≤ td.length
        · simp only [guard, if_pos hg4, Option.pure_def, Option.some_bind] at h
          by_cases hg5 : sid2.submap_index = td.length
          · rw [if_pos hg5] at h
            cases hfp : td.get? fid.submap_index with
            | none => rw [hfp] at h; exact Option.noConfusion h
            | some fp =>
            rw [hfp] at h
            simp only [Option.some_bind, Option.pure_def] at h
            injection h with h
            rw [← h]
          · rw [if_neg hg5] at h
            injection h with h
            rw [← h]
        · simp only [guard, if_neg hg4] at h
          exact Option.noConfusion h
      · simp only [guard, if_neg hg3] at h
        exact Option.noConfusion h
    · simp only [guard, if_neg hg2] at h
      exact Option.noConfusion h

theorem allocateNode_spec (s : State G Cov Info) (scan_index : Nat)
    (matching : Submap G) (pose : G) (r : State G Cov Info × NodeId)
    (h : allocateNode s scan_index matching pose = some r) :
    r.1 = { s with scan_index_to_node_id := r.1.scan_index_to_node_id, num_nodes_in_trajectory := r.1.num_nodes_in_trajectory, opt_node_data := r.1.opt_node_data } ∧
    r.1.scan_index_to_node_id = s.scan_index_to_node_id ++ [r.2] ∧
    scan_index = s.scan_index_to_node_id.length := by
  simp only [allocateNode, Option.bind_eq_bind, Option.bind_eq_some,
    Option.pure_def, Option.some.injEq] at h
  obtain ⟨mid, hmid, msd, hmsd, u, hgu, sd, hsd, u2, hgu2, hr⟩ := h
  have hguard : scan_index = s.scan_index_to_node_id.length := by
    by_cases hc : scan_index = s.scan_index_to_node_id.length
    · exact hc
    · rw [guard, if_neg hc] at hgu
      exact Option.noConfusion hgu
  rw [← hr]
  exact ⟨rfl, rfl, hguard⟩

theorem handleFinishedSubmap_frame (s : State G Cov Info)
    (fin : Option (Submap G)) (r : State G Cov Info × List (Event G Cov))
    (h : handleFinishedSubmap s fin = some r) :
    r.1 = { s with submap_states := r.1.submap_states, samplers := r.1.samplers } := by
  cases fin with
  | none =>
    simp only [handleFinishedSubmap, Option.some.injEq] at h
    rw [← h]
  | some fsub =>
    simp only [handleFinishedSubmap, Option.bind_eq_bind, Option.bind_eq_some,
      Option.pure_def, Option.some.injEq] at h
    obtain ⟨fid, hfid, st, hst, u, hgu, rr, hrr, hr⟩ := h
    have e1 := computeConstraintsForOldScans_frame _ _ _ hrr
    rw [← hr]
    rw [e1]

theorem endOfScanTrigger_spec (env : Env Cov Info Bnd) (s s1 : State G Cov Info)
    (h : endOfScanTrigger env s = some s1) :
    s1.num_scans_since_last_loop_closure = s.num_scans_since_last_loop_closure + 1 ∧
    s1 = { s with num_scans_since_last_loop_closure := s1.num_scans_since_last_loop_closure, run_loop_closure := s1.run_loop_closure, scan_queue := s1.scan_queue } ∧
    (¬ (env.options.optimize_every_n_scans > 0 ∧
        s.num_scans_since_last_loop_closure + 1 > env.options.optimize_every_n_scans) →
      s1.run_loop_closure = s.run_loop_closure ∧ s1.scan_queue = s.scan_queue) ∧
    ((env.options.optimize_every_n_scans > 0 ∧
        s.num_scans_since_last_loop_closure + 1 > env.options.optimize_every_n_scans) →
      s.run_loop_closure = false ∧ s1.run_loop_closure = true ∧
      (s.scan_queue = none → s1.scan_queue = some []) ∧
      (∀ q, s.scan_queue = some q → s1.scan_queue = some q)) := by
  simp only [endOfScanTrigger] at h
  by_cases hc : env.options.optimize_every_n_scans > 0 ∧
      s.num_scans_since_last_loop_closure + 1 > env.options.optimize_every_n_scans
  · rw [if_pos hc] at h
    by_cases hf : s.run_loop_closure = false
    · simp only [guard, if_pos hf, Option.pure_def, Option.some_bind] at h
      revert h
      cases hq : s.scan_queue with
      | none =>
        intro h
        injection h with h
        rw [← h]
        refine ⟨rfl, rfl, fun hcon => absurd hc hcon, fun _ => ⟨hf, rfl, fun _ => rfl, ?_⟩⟩
        intro q hq2
        exact Option.noConfusion hq2
      | some q0 =>
        intro h
        injection h with h
        rw [← h]
        refine ⟨rfl, rfl, fun hcon => absurd hc hcon, fun _ => ⟨hf, rfl, ?_, ?_⟩⟩
        · intro hq2
          exact Option.noConfusion hq2
        · intro q hq2
          injection hq2 with hq2
          exact congrArg some hq2
    · simp only [guard, if_neg hf] at h
      exact Option.noConfusion h
  · rw [if_neg hc] at h
    injection h with h
    rw [← h]
    exact ⟨rfl, rfl, fun _ => ⟨rfl, rfl⟩, fun hcon => absurd hcon hc⟩

theorem computeConstraintsForScan_decomp (env : Env Cov Info Bnd)
    (s : State G Cov Info) (scan_index : Nat) (m : Submap G)
    (ins : List (Submap G)) (fin : Option (Submap G)) (pose : G) (cov : Cov)
    (r : State G Cov Info × List (Event G Cov))
    (h : computeConstraintsForScan env s scan_index m ins fin pose cov = some r) :
    ∃ s1 r2 s3 r4 r5 s6,
      growSubmapTransformsAsNeeded s ins = some s1 ∧
      allocateNode s1 scan_index m pose = some r2 ∧
      addIntraConstraints env r2.2 pose cov r2.1 ins = some s3 ∧
      matchAgainstFinished r2.2 scan_index s3 (finishedSubmapIds s3.submap_states) = some r4 ∧
      handleFinishedSubmap r4.1 fin = some r5 ∧
      endOfScanTrigger env r5.1 = some s6 ∧
      r = (s6, r4.2 ++ r5.2 ++ [Event.notifyEndOfScan scan_index]) := by
  simp only [computeConstraintsForScan, Option.bind_eq_bind, Option.bind_eq_some,
    Option.pure_def, Option.some.injEq] at h
  obtain ⟨s1, h1, r2, h2, s3, h3, r4, h4, r5, h5, s6, h6, hr⟩ := h
  exact ⟨s1, r2, s3, r4, r5, s6, h1, h2, h3, h4, h5, h6, hr.symm⟩

theorem computeConstraintsForScan_effect (env : Env Cov Info Bnd)
    (s : State G Cov Info) (scan_index : Nat) (m : Submap G)
    (ins : List (Submap G)) (fin : Option (Submap G)) (pose : G) (cov : Cov)
    (r : State G Cov Info × List (Event G Cov))
    (h : computeConstraintsForScan env s scan_index m ins fin pose cov = some r) :
    r.1.trajectory_nodes = s.trajectory_nodes ∧
    (env.options.optimize_every_n_scans = 0 →
      r.1.scan_queue = s.scan_queue ∧ r.1.run_loop_closure = s.run_loop_closure) := by
  obtain ⟨s1, r2, s3, r4, r5, s6, h1, h2, h3, h4, h5, h6, hr⟩ :=
    computeConstraintsForScan_decomp env s scan_index m ins fin pose cov r h
  have e1 := growSubmapTransformsAsNeeded_frame _ _ _ h1
  have e2 := (allocateNode_spec _ _ _ _ _ h2).1
  have e3 := addIntraConstraints_frame _ _ _ _ _ _ _ h3
  have e4 := matchAgainstFinished_frame _ _ _ _ _ h4
  have e5 := handleFinishedSubmap_frame _ _ _ h5
  obtain ⟨e6c, e6f, e6no, e6yes⟩ := endOfScanTrigger_spec _ _ _ h6
  have hr1 : r.1 = s6 := by rw [hr]
  constructor
  · rw [hr1, e6f, e5, e4, e3, e2, e1]
  · intro h0
    have hno := e6no (by rw [h0]; intro hcon; exact absurd hcon.1 (by omega))
    constructor
    · rw [hr1, hno.2, e5, e4, e3, e2, e1]
    · rw [hr1, hno.1, e5, e4, e3, e2, e1]

theorem addWorkItem_cases (env : Env Cov Info Bnd) (s : State G Cov Info)
    (item : WorkItem G Cov) (r : State G Cov Info × List (Event G Cov))
    (h : addWorkItem env s item = some r) :
    (s.scan_queue = none ∧ execWorkItem env s item = some r) ∨
    (∃ q, s.scan_queue = some q ∧
      r = ({ s with scan_queue := some (q ++ [item]) }, [])) := by
  unfold addWorkItem at h
  revert h
  cases hq : s.scan_queue with
  | none => intro h; exact Or.inl ⟨rfl, h⟩
  | some q => intro h; injection h with h; exact Or.inr ⟨q, rfl, h.symm⟩

theorem execWorkItem_effect (env : Env Cov Info Bnd) (s : State G Cov Info)
    (item : WorkItem G Cov) (r : State G Cov Info × List (Event G Cov))
    (h : execWorkItem env s item = some r) :
    r.1.trajectory_nodes = s.trajectory_nodes ∧
    (env.options.optimize_every_n_scans = 0 →
      r.1.scan_queue = s.scan_queue ∧ r.1.run_loop_closure = s.run_loop_closure) := by
  cases item with
  | computeScan idx m ins fin pose cov =>
    exact computeConstraintsForScan_effect env s idx m ins fin pose cov r h
  | addImu th payload =>
    simp only [execWorkItem, Option.bind_eq_bind, Option.bind_eq_some,
      Option.some.injEq] at h
    obtain ⟨tid, htid, hr⟩ := h
    rw [← hr]
    exact ⟨rfl, fun _ => ⟨rfl, rfl⟩⟩

theorem ensureSampler_trajectory_nodes (x : State G Cov Info) (tid : Nat)
    (str : Nat → Bool) :
    (ensureSampler x tid str).trajectory_nodes = x.trajectory_nodes := by
  unfold ensureSampler
  split <;> rfl

theorem ensureSampler_scan_queue (x : State G Cov Info) (tid : Nat)
    (str : Nat → Bool) :
    (ensureSampler x tid str).scan_queue = x.scan_queue := by
  unfold ensureSampler
  split <;> rfl

theorem ensureSampler_run_loop_closure (x : State G Cov Info) (tid : Nat)
    (str : Nat → Bool) :
    (ensureSampler x tid str).run_loop_closure = x.run_loop_closure := by
  unfold ensureSampler
  split <;> rfl

theorem addScan_effect (env : Env Cov Info Bnd) (s : State G Cov Info)
    (th : Nat) (lp : Nat → G) (t : Nat) (p : G) (c : Cov) (m : Submap G)
    (ins : List (Submap G)) (str : Nat → Bool)
    (r : State G Cov Info × List (Event G Cov))
    (h : addScan env s th lp t p c m ins str = some r) :
    r.1.trajectory_nodes ≠ [] ∧
    (s.scan_queue = none → env.options.optimize_every_n_scans = 0 →
      r.1.scan_queue = none ∧ r.1.run_loop_closure = s.run_loop_closure) := by
  unfold addScan at h
  simp only [Option.bind_eq_bind, Option.bind_eq_some] at h
  obtain ⟨tid, htid, last, hlast, first, hfirst, haw⟩ := h
  rcases addWorkItem_cases _ _ _ _ haw with ⟨hq, hex⟩ | ⟨q, hq, hr⟩
  · have he := execWorkItem_effect _ _ _ _ hex
    constructor
    · rw [he.1, ensureSampler_trajectory_nodes]
      split <;> simp
    · intro hqnone h0
      constructor
      · rw [(he.2 h0).1, ensureSampler_scan_queue]
        split <;> exact hqnone
      · rw [(he.2 h0).2, ensureSampler_run_loop_closure]
        split <;> rfl
  · constructor
    · rw [hr]
      simp only []
      rw [ensureSampler_trajectory_nodes]
      split <;> simp
    · intro hqnone h0
      rw [ensureSampler_scan_queue] at hq
      exfalso
      revert hq
      split <;> (intro hq; rw [hqnone] at hq; exact Option.noConfusion hq)

theorem addImuData_effect (env : Env Cov Info Bnd) (s : State G Cov Info)
    (th : Nat) (payload : Nat) (r : State G Cov Info × List (Event G Cov))
    (h : addImuData env s th payload = some r) :
    r.1.trajectory_nodes = s.trajectory_nodes ∧
    r.1.opt_submap_data = s.opt_submap_data ∧
    r.1.run_loop_closure = s.run_loop_closure ∧
    (s.scan_queue = none → r.1.scan_queue = none) := by
  simp only [addImuData] at h
  rcases addWorkItem_cases _ _ _ _ h with ⟨hq, hex⟩ | ⟨q, hq, hr⟩
  · simp only [execWorkItem, Option.bind_eq_bind, Option.bind_eq_some,
      Option.some.injEq] at hex
    obtain ⟨tid, htid, hrr⟩ := hex
    rw [← hrr]
    have hq2 : s.scan_queue = none := hq
    exact ⟨rfl, rfl, rfl, fun _ => hq2⟩
  · rw [hr]
    refine ⟨rfl, rfl, rfl, ?_⟩
    intro hqnone
    have hq2 : s.scan_queue = some q := hq
    rw [hqnone] at hq2
    exact Option.noConfusion hq2

theorem runOptimization_effect (o : SolveOracle G) (s : State G Cov Info)
    (r : State G Cov Info × List (Event G Cov)) (h : runOptimization o s = some r) :
    r.1.trajectory_nodes.length = s.trajectory_nodes.length ∧
    r.1.scan_queue = s.scan_queue ∧
    r.1.run_loop_closure = s.run_loop_closure ∧
    r.1.num_scans_since_last_loop_closure = s.num_scans_since_last_loop_closure ∧
    r.1.constraints = s.constraints ∧
    r.1.submap_states = s.submap_states ∧
    r.1.scan_index_to_node_id = s.scan_index_to_node_id ∧
    (s.opt_submap_data = [] → r = (s, [])) := by
  simp only [runOptimization] at h
  split at h
  · next hemp =>
    injection h with h
    rw [← h]
    exact ⟨rfl, rfl, rfl, rfl, rfl, rfl, rfl, fun _ => rfl⟩
  · next hemp =>
    simp only [Option.bind_eq_bind, Option.bind_eq_some, Option.pure_def,
      Option.some.injEq] at h
    obtain ⟨s_c, hcopy, s3, htail, hr⟩ := h
    obtain ⟨⟨hcf, hcl⟩, _, _⟩ :=
      copyOptimizedPoses_spec _ _ _ _ hcopy (List.nodup_range _)
    obtain ⟨⟨htf, htl⟩, _, _⟩ :=
      extrapolateTail_spec _ _ _ _ htail
        (fun p hp => absurd hp (List.not_mem_nil p)) (List.nodup_range' _ _)
    have hnonnil : ¬ (s.opt_submap_data = []) := by
      intro hnil
      exact hemp (by rw [hnil]; rfl)
    rw [← hr]
    refine ⟨?_, ?_, ?_, ?_, ?_, ?_, ?_, fun hnil => absurd hnil hnonnil⟩
    · show s3.trajectory_nodes.length = s.trajectory_nodes.length
      rw [htl]
      exact hcl
    · show s3.scan_queue = s.scan_queue
      rw [htf, hcf]
    · show s3.run_loop_closure = s.run_loop_closure
      rw [htf, hcf]
    · show s3.num_scans_since_last_loop_closure = s.num_scans_since_last_loop_closure
      rw [htf, hcf]
    · show s3.constraints = s.constraints
      rw [htf, hcf]
    · show s3.submap_states = s.submap_states
      rw [htf, hcf]
    · show s3.scan_index_to_node_id = s.scan_index_to_node_id
      rw [htf, hcf]

theorem drainLoop_nodes (env : Env Cov Info Bnd) :
    ∀ (q : List (WorkItem G Cov)) (s : State G Cov Info)
    (r : State G Cov Info × List (Event G Cov)),
    drainLoop env s q = some r → r.1.trajectory_nodes = s.trajectory_nodes := by
  intro q
  induction q with
  | nil =>
    intro s r h
    simp only [drainLoop] at h
    split at h <;> (injection h with h; rw [← h])
  | cons item rest ih =>
    intro s r h
    simp only [drainLoop] at h
    split at h
    · injection h with h
      rw [← h]
    · simp only [Option.bind_eq_bind, Option.bind_eq_some, Option.pure_def,
        Option.some.injEq] at h
      obtain ⟨r1, h1, r2, h2, hr⟩ := h
      have e1 := (execWorkItem_effect _ _ _ _ h1).1
      have e2 := ih _ _ h2
      rw [← hr]
      show r2.1.trajectory_nodes = s.trajectory_nodes
      rw [e2]
      exact e1

theorem handleQueueCallback_effect (env : Env Cov Info Bnd) (o : SolveOracle G)
    (res : MatcherResult G Info) (s : State G Cov Info)
    (r : State G Cov Info × List (Event G Cov))
    (h : handleQueueCallback env o res s = some r) :
    r.1.trajectory_nodes.length = s.trajectory_nodes.length ∧
    (∃ q, s.scan_queue = some q) := by
  unfold handleQueueCallback at h
  revert h
  cases hq : s.scan_queue with
  | none => intro h; exact Option.noConfusion h
  | some q =>
  intro h
  simp only [Option.bind_eq_bind, Option.some_bind, Option.bind_eq_some,
    Option.pure_def, Option.some.injEq] at h
  obtain ⟨r2, h2, r4, h4, hr⟩ := h
  have e2 := (runOptimization_effect _ _ _ h2).1
  have e4 := drainLoop_nodes _ _ _ _ h4
  refine ⟨?_, q, rfl⟩
  rw [← hr]
  show r4.1.trajectory_nodes.length = s.trajectory_nodes.length
  rw [e4]
  exact e2

theorem reach_sync_mode (env : Env Cov Info Bnd)
    (h0 : env.options.optimize_every_n_scans = 0) :
    ∀ s : State G Cov Info, Reach env s →
      s.scan_queue = none ∧ s.run_loop_closure = false := by
  intro s hreach
  induction hreach with
  | init => exact ⟨rfl, rfl⟩
  | next op hre hstep ih =>
    cases op with
    | addScan th lp t p c m ins str =>
      simp only [step] at hstep
      have he := addScan_effect _ _ _ _ _ _ _ _ _ _ _ hstep
      obtain ⟨hq, hf⟩ := he.2 ih.1 h0
      exact ⟨hq, hf.trans ih.2⟩
    | addImuData th payload =>
      simp only [step] at hstep
      have he := addImuData_effect _ _ _ _ _ hstep
      exact ⟨he.2.2.2 ih.1, he.2.2.1.trans ih.2⟩
    | fireCallback o res =>
      simp only [step] at hstep
      obtain ⟨q, hq⟩ := (handleQueueCallback_effect _ _ _ _ _ hstep).2
      rw [ih.1] at hq
      exact Option.noConfusion hq
    | absorbResult res =>
      simp only [step, Option.some.injEq] at hstep
      injection hstep with ha hb
      exact ⟨(congrArg State.scan_queue ha.symm).trans ih.1,
        (congrArg State.run_loop_closure ha.symm).trans ih.2⟩
    | runFinalOptimization w o =>
      simp only [step] at hstep
      unfold runFinalOptimization at hstep
      have he := runOptimization_effect _ _ _ hstep
      exact ⟨he.2.1.trans ih.1, he.2.2.1.trans ih.2⟩

/-- C9: with optimize_every_n_scans = 0, the pending-optimization flag is
never set and the work queue is never allocated on any reachable state, so
every work item submitted by ingestion runs inline synchronously. -/
theorem claim_C9 (env : Env Cov Info Bnd)
    (h0 : env.options.optimize_every_n_scans = 0)
    (s : State G Cov Info) (hreach : Reach env s) :
    s.scan_queue = none ∧ s.run_loop_closure = false ∧
    ∀ item : WorkItem G Cov, addWorkItem env s item = execWorkItem env s item := by
  obtain ⟨hq, hf⟩ := reach_sync_mode env h0 s hreach
  refine ⟨hq, hf, ?_⟩
  intro item
  unfold addWorkItem
  rw [hq]

/-- C9 witness: the freshly constructed pose graph under a configuration
with periodic optimization disabled. -/
theorem claim_C9_witness :
    (wEnv0.options.optimize_every_n_scans = 0) ∧
    (initState (Multiplicative Int) Nat Nat).scan_queue = none ∧
    (initState (Multiplicative Int) Nat Nat).run_loop_closure = false ∧
    ∀ item : WorkItem (Multiplicative Int) Nat,
      addWorkItem wEnv0 (initState (Multiplicative Int) Nat Nat) item =
        execWorkItem wEnv0 (initState (Multiplicative Int) Nat Nat) item :=
  ⟨rfl, claim_C9 wEnv0 rfl (initState (Multiplicative Int) Nat Nat) Reach.init⟩

theorem reach_empty_inv (env : Env Cov Info Bnd) :
    ∀ s : State G Cov Info, Reach env s → s.trajectory_nodes = [] →
      s.opt_submap_data = [] ∧ s.scan_queue = none := by
  intro s hreach
  induction hreach with
  | init => exact fun _ => ⟨rfl, rfl⟩
  | @next s0 s1 ev0 op hre hstep ih =>
    cases op with
    | addScan th lp t p c m ins str =>
      simp only [step] at hstep
      intro hnil
      exact absurd hnil (addScan_effect _ _ _ _ _ _ _ _ _ _ _ hstep).1
    | addImuData th payload =>
      simp only [step] at hstep
      have he := addImuData_effect _ _ _ _ _ hstep
      intro hnil
      have hnil0 : s0.trajectory_nodes = [] := by
        rw [← he.1]
        exact hnil
      obtain ⟨hd, hq⟩ := ih hnil0
      exact ⟨he.2.1.trans hd, he.2.2.2 hq⟩
    | fireCallback o res =>
      simp only [step] at hstep
      have he := handleQueueCallback_effect _ _ _ _ _ hstep
      intro hnil
      obtain ⟨q, hq⟩ := he.2
      have hpre : s0.trajectory_nodes = [] := by
        apply List.length_eq_zero.mp
        rw [← he.1]
        show s1.trajectory_nodes.length = 0
        rw [hnil]
        rfl
      obtain ⟨_, hqnone⟩ := ih hpre
      rw [hqnone] at hq
      exact Option.noConfusion hq
    | absorbResult res =>
      simp only [step, Option.some.injEq] at hstep
      injection hstep with ha hb
      intro hnil
      rw [← ha] at hnil ⊢
      obtain ⟨hd, hq⟩ := ih hnil
      exact ⟨hd, hq⟩
    | runFinalOptimization w o =>
      simp only [step] at hstep
      unfold runFinalOptimization at hstep
      have he := runOptimization_effect _ _ _ hstep
      intro hnil
      have hpre : s0.trajectory_nodes = [] := by
        apply List.length_eq_zero.mp
        rw [← he.1]
        show s1.trajectory_nodes.length = 0
        rw [hnil]
        rfl
      obtain ⟨hd, hq⟩ := ih hpre
      have hres := he.2.2.2.2.2.2.2 (by exact hd)
      have h1 : s1 = { s0 with constraints := s0.constraints ++ interify w } := by
        have := congrArg Prod.fst hres
        exact this
      rw [h1]
      exact ⟨hd, hq⟩

/-- C10: if the optimization problem holds no submap data, RunOptimization
returns immediately without invoking the solver — the state (node poses,
constraints, the optimized submap transforms snapshot and the
connected-components structures) is returned unchanged and no solve event is
emitted; consequently RunFinalOptimization, called in any reachable state in
which no scan has been ingested, only absorbs the final matcher batch and
never calls Solve. -/
theorem claim_C10 :
    (∀ (o : SolveOracle G) (s : State G Cov Info),
        s.opt_submap_data = [] → runOptimization o s = some (s, [])) ∧
    (∀ (env : Env Cov Info Bnd) (s : State G Cov Info), Reach env s →
        s.trajectory_nodes = [] →
        ∀ (w : MatcherResult G Info) (o : SolveOracle G),
          runFinalOptimization w o s =
            some ({ s with constraints := s.constraints ++ interify w }, [])) := by
  have hbase : ∀ (o : SolveOracle G) (s : State G Cov Info),
      s.opt_submap_data = [] → runOptimization o s = some (s, []) := by
    intro o s hdata
    unfold runOptimization
    rw [if_pos]
    rw [hdata]
    rfl
  refine ⟨hbase, ?_⟩
  intro env s hreach hnil w o
  have hd := (reach_empty_inv env s hreach hnil).1
  unfold runFinalOptimization
  exact hbase o _ hd

/-- C10 witness: the freshly constructed pose graph holds no submap data,
so RunOptimization is the identity there, and RunFinalOptimization from the
initial state merely appends the (empty) absorbed batch. -/
theorem claim_C10_witness :
    runOptimization wOracleC2 (initState (Multiplicative Int) Nat Nat) =
      some (initState (Multiplicative Int) Nat Nat, []) ∧
    runFinalOptimization wMatcherEmpty wOracleC2 (initState (Multiplicative Int) Nat Nat) =
      some ({ initState (Multiplicative Int) Nat Nat with
              constraints := (initState (Multiplicative Int) Nat Nat).constraints ++
                interify wMatcherEmpty }, []) :=
  ⟨(@claim_C10 (Multiplicative Int) Nat Nat Nat _).1 wOracleC2
     (initState (Multiplicative Int) Nat Nat) rfl,
   (@claim_C10 (Multiplicative Int) Nat Nat Nat _).2 wEnv0
     (initState (Multiplicative Int) Nat Nat) Reach.init rfl
     wMatcherEmpty wOracleC2⟩

theorem listModify_get?_map {α : Type _} (f : α → α) :
    ∀ (l : List α) (t : Nat), (listModify f t l).get? t = (l.get? t).map f := by
  intro l
  induction l with
  | nil => intro t; cases t <;> rfl
  | cons a l ih =>
    intro t
    cases t with
    | zero => rfl
    | succ n => exact ih n

theorem stateAt_statesAt (s : State G Cov Info) (id : SubmapId) :
    stateAt s id = statesAt s.submap_states id := rfl

theorem statesAt_modify (states : List (List (SubmapState G))) (sid id : SubmapId)
    (f : SubmapState G → SubmapState G) :
    statesAt (modifySubmapState states sid f) id =
      if id = sid then (statesAt states id).map f else statesAt states id := by
  by_cases hid : id = sid
  · subst hid
    rw [if_pos rfl]
    unfold statesAt modifySubmapState
    rw [listModify_get?_map]
    cases hl : states.get? id.trajectory_id with
    | none => rfl
    | some l => exact listModify_get?_map f l id.submap_index
  · rw [if_neg hid]
    unfold statesAt modifySubmapState
    by_cases ht : id.trajectory_id = sid.trajectory_id
    · have hsi : id.submap_index ≠ sid.submap_index := by
        intro hsi
        apply hid
        cases id
        cases sid
        cases ht
        cases hsi
        rfl
      rw [ht, listModify_get?_map]
      cases hl : states.get? sid.trajectory_id with
      | none => rfl
      | some l => exact listModify_get?_ne f l sid.submap_index id.submap_index hsi
    · rw [listModify_get?_ne _ _ _ _ ht]

theorem setEmplace_mem_self {α : Type _} [DecidableEq α] (a : α) (l : List α) :
    a ∈ setEmplace a l := by
  by_cases h : a ∈ l
  · simp only [setEmplace, if_pos h]
    exact h
  · simp only [setEmplace, if_neg h]
    exact List.mem_append.mpr (Or.inr (List.mem_singleton.mpr rfl))

theorem setEmplace_mem_of_mem {α : Type _} [DecidableEq α] (a b : α) (l : List α)
    (h : b ∈ l) : b ∈ setEmplace a l := by
  by_cases h2 : a ∈ l
  · simp only [setEmplace, if_pos h2]
    exact h
  · simp only [setEmplace, if_neg h2]
    exact List.mem_append.mpr (Or.inl h)

theorem statesMono_of_states_eq (a b : State G Cov Info)
    (h : b.submap_states = a.submap_states) : statesMono a b := by
  intro id st hat
  refine ⟨st, ?_, fun n hn => hn⟩
  rw [stateAt_statesAt, h]
  exact hat

theorem statesMono_trans (a b c : State G Cov Info)
    (h1 : statesMono a b) (h2 : statesMono b c) : statesMono a c := by
  intro id st hat
  obtain ⟨st1, hat1, hsub1⟩ := h1 id st hat
  obtain ⟨st2, hat2, hsub2⟩ := h2 id st1 hat1
  exact ⟨st2, hat2, fun n hn => hsub2 n (hsub1 n hn)⟩

theorem statesMono_of_table (a b : State G Cov Info)
    (h : ∀ (id : SubmapId) (st : SubmapState G),
      statesAt a.submap_states id = some st → statesAt b.submap_states id = some st) :
    statesMono a b := by
  intro id st hat
  exact ⟨st, h id st hat, fun n hn => hn⟩

theorem statesMono_modify (a b : State G Cov Info) (sid : SubmapId)
    (f : SubmapState G → SubmapState G)
    (hb : b.submap_states = modifySubmapState a.submap_states sid f)
    (hf : ∀ t : SubmapState G, ∀ n ∈ t.node_ids, n ∈ (f t).node_ids) :
    statesMono a b := by
  intro id st hat
  rw [stateAt_statesAt] at hat
  by_cases hid : id = sid
  · refine ⟨f st, ?_, hf st⟩
    rw [stateAt_statesAt, hb, statesAt_modify, if_pos hid, hat]
    rfl
  · refine ⟨st, ?_, fun n hn => hn⟩
    rw [stateAt_statesAt, hb, statesAt_modify, if_neg hid]
    exact hat

theorem intraInv_transport (a b : State G Cov Info)
    (hc : b.constraints = a.constraints) (hm : statesMono a b)
    (hi : IntraInv a) : IntraInv b := by
  intro c hcmem htag
  rw [hc] at hcmem
  obtain ⟨st, hat, hmem⟩ := hi c hcmem htag
  obtain ⟨st1, hat1, hsub⟩ := hm c.submap_id st hat
  exact ⟨st1, hat1, hsub _ hmem⟩

theorem intraInv_of_eq (a b : State G Cov Info)
    (hs : b.submap_states = a.submap_states) (hc : b.constraints = a.constraints) :
    statesMono a b ∧ (IntraInv a → IntraInv b) :=
  ⟨statesMono_of_states_eq a b hs,
   fun hi => intraInv_transport a b hc (statesMono_of_states_eq a b hs) hi⟩

theorem interify_tag (r : MatcherResult G Info) :
    ∀ c ∈ interify r, c.tag = ConstraintTag.INTER_SUBMAP := by
  intro c hc
  simp only [interify, List.mem_map] at hc
  obtain ⟨q, hq, hc⟩ := hc
  rw [← hc]

theorem intraInv_append_inter (a b : State G Cov Info) (r : MatcherResult G Info)
    (hc : b.constraints = a.constraints ++ interify r) (hm : statesMono a b)
    (hi : IntraInv a) : IntraInv b := by
  intro c hcmem htag
  rw [hc] at hcmem
  rcases List.mem_append.mp hcmem with hold | hnew
  · obtain ⟨st, hat, hmem⟩ := hi c hold htag
    obtain ⟨st1, hat1, hsub⟩ := hm c.submap_id st hat
    exact ⟨st1, hat1, hsub _ hmem⟩
  · have htag2 := interify_tag r c hnew
    rw [htag] at htag2
    exact ConstraintTag.noConfusion htag2

theorem addIntraConstraints_cons (env : Env Cov Info Bnd) (nid : NodeId)
    (pose : G) (cov : Cov) (submap : Submap G) (rest : List (Submap G))
    (s s1 : State G Cov Info)
    (h : addIntraConstraints env nid pose cov s (submap :: rest) = some s1) :
    ∃ (sid : SubmapId) (st : SubmapState G) (s2 : State G Cov Info),
      getSubmapId s submap = some sid ∧
      stateAt s sid = some st ∧
      st.finished = false ∧
      s2.submap_states = modifySubmapState s.submap_states sid
        (fun t => { t with node_ids := setEmplace nid t.node_ids }) ∧
      s2.constraints = s.constraints ++
        [⟨sid, nid,
          ⟨submap.local_pose⁻¹ * pose,
           env.computeSpdMatrixSqrtInverse cov
             env.options.lower_covariance_eigenvalue_bound⟩,
          ConstraintTag.INTRA_SUBMAP⟩] ∧
      s2 = { s with submap_states := s2.submap_states, constraints := s2.constraints } ∧
      addIntraConstraints env nid pose cov s2 rest = some s1 := by
  simp only [addIntraConstraints, Option.bind_eq_bind, Option.bind_eq_some] at h
  obtain ⟨sid, hsid, st, hst, u, hgu, h⟩ := h
  have hfin : st.finished = false := by
    by_cases hc : st.finished = false
    · exact hc
    · rw [guard, if_neg hc] at hgu
      exact Option.noConfusion hgu
  exact ⟨sid, st, _, hsid, hst, hfin, rfl, rfl, rfl, h⟩

theorem addIntraConstraints_count (env : Env Cov Info Bnd) (nid : NodeId)
    (pose : G) (cov : Cov) :
    ∀ (l : List (Submap G)) (s s1 : State G Cov Info),
    addIntraConstraints env nid pose cov s l = some s1 →
    s1.constraints.length = s.constraints.length + l.length := by
  intro l
  induction l with
  | nil =>
    intro s s1 h
    simp only [addIntraConstraints, Option.some.injEq] at h
    rw [← h]
    rfl
  | cons submap rest ih =>
    intro s s1 h
    obtain ⟨sid, st, s2, hsid, hst, hfin, hss, hsc, hframe, h⟩ :=
      addIntraConstraints_cons env nid pose cov submap rest s s1 h
    have e := ih s2 s1 h
    rw [hsc] at e
    simp only [List.length_append, List.length_cons, List.length_nil] at e
    simp only [List.length_cons]
    omega

theorem addIntraConstraints_inv (env : Env Cov Info Bnd) (nid : NodeId)
    (pose : G) (cov : Cov) :
    ∀ (l : List (Submap G)) (s s1 : State G Cov Info),
    addIntraConstraints env nid pose cov s l = some s1 →
    statesMono s s1 ∧ (IntraInv s → IntraInv s1) := by
  intro l
  induction l with
  | nil =>
    intro s s1 h
    simp only [addIntraConstraints, Option.some.injEq] at h
    rw [← h]
    exact ⟨statesMono_of_states_eq s s rfl, fun hi => hi⟩
  | cons submap rest ih =>
    intro s s1 h
    obtain ⟨sid, st, s2, hsid, hst, hfin, hss, hsc, hframe, h⟩ :=
      addIntraConstraints_cons env nid pose cov submap rest s s1 h
    obtain ⟨m2, i2⟩ := ih s2 s1 h
    have m1 : statesMono s s2 := by
      refine statesMono_modify s s2 sid _ hss ?_
      intro t n hn
      exact setEmplace_mem_of_mem nid n t.node_ids hn
    refine ⟨statesMono_trans s s2 s1 m1 m2, fun hi => i2 ?_⟩
    intro c hcmem htag
    rw [hsc] at hcmem
    rcases List.mem_append.mp hcmem with hold | hnew
    · obtain ⟨st0, hat0, hmem0⟩ := hi c hold htag
      obtain ⟨st2, hat2, hsub2⟩ := m1 c.submap_id st0 hat0
      exact ⟨st2, hat2, hsub2 _ hmem0⟩
    · have hceq := List.mem_singleton.mp hnew
      subst hceq
      have hat2 : stateAt s2 sid =
          some { st with node_ids := setEmplace nid st.node_ids } := by
        rw [stateAt_statesAt, hss, statesAt_modify, if_pos rfl]
        rw [stateAt_statesAt] at hst
        rw [hst]
        rfl
      exact ⟨{ st with node_ids := setEmplace nid st.node_ids }, hat2,
        setEmplace_mem_self nid st.node_ids⟩

theorem handleFinishedSubmap_inv (s : State G Cov Info)
    (fin : Option (Submap G)) (r : State G Cov Info × List (Event G Cov))
    (h : handleFinishedSubmap s fin = some r) :
    statesMono s r.1 ∧ r.1.constraints = s.constraints ∧
    (IntraInv s → IntraInv r.1) := by
  cases fin with
  | none =>
    simp only [handleFinishedSubmap, Option.some.injEq] at h
    rw [← h]
    exact ⟨statesMono_of_states_eq s s rfl, rfl, fun hi => hi⟩
  | some fsub =>
    simp only [handleFinishedSubmap, Option.bind_eq_bind, Option.bind_eq_some,
      Option.pure_def, Option.some.injEq] at h
    obtain ⟨fid, hfid, st, hst, u, hgu, rr, hrr, hr⟩ := h
    have e1 := computeConstraintsForOldScans_frame _ _ _ hrr
    have hr1 : r.1 = { rr.1 with submap_states := modifySubmapState rr.1.submap_states fid (fun t => { t with finished := true }) } := by
      rw [← hr]
    have hstates_rr : rr.1.submap_states = s.submap_states := by
      rw [e1]
    have hcon_rr : rr.1.constraints = s.constraints := by
      rw [e1]
    have m1 : statesMono s rr.1 := statesMono_of_states_eq s rr.1 hstates_rr
    have m2 : statesMono rr.1 r.1 := by
      refine statesMono_modify rr.1 r.1 fid
        (fun t => { t with finished := true }) ?_ ?_
      · rw [hr1]
      · intro t n hn
        exact hn
    have hc : r.1.constraints = s.constraints := by
      rw [hr1]
      exact hcon_rr
    exact ⟨statesMono_trans _ _ _ m1 m2, hc, fun hi =>
      intraInv_transport s r.1 hc (statesMono_trans _ _ _ m1 m2) hi⟩

theorem computeConstraintsForScan_inv (env : Env Cov Info Bnd)
    (s : State G Cov Info) (scan_index : Nat) (m : Submap G)
    (ins : List (Submap G)) (fin : Option (Submap G)) (pose : G) (cov : Cov)
    (r : State G Cov Info × List (Event G Cov))
    (h : computeConstraintsForScan env s scan_index m ins fin pose cov = some r) :
    statesMono s r.1 ∧ (IntraInv s → IntraInv r.1) := by
  obtain ⟨s1, r2, s3, r4, r5, s6, h1, h2, h3, h4, h5, h6, hr⟩ :=
    computeConstraintsForScan_decomp env s scan_index m ins fin pose cov r h
  have e1 := growSubmapTransformsAsNeeded_frame _ _ _ h1
  have e2 := (allocateNode_spec _ _ _ _ _ h2).1
  have e4 := matchAgainstFinished_frame _ _ _ _ _ h4
  obtain ⟨e6c, e6f, _, _⟩ := endOfScanTrigger_spec _ _ _ h6
  obtain ⟨ma, ia⟩ := addIntraConstraints_inv env r2.2 pose cov ins r2.1 s3 h3
  obtain ⟨m5, c5, i5⟩ := handleFinishedSubmap_inv r4.1 fin r5 h5
  have p1 := intraInv_of_eq s s1 (by rw [e1]) (by rw [e1])
  have p2 := intraInv_of_eq s1 r2.1 (by rw [e2]) (by rw [e2])
  have p4 := intraInv_of_eq s3 r4.1 (by rw [e4]) (by rw [e4])
  have p6 := intraInv_of_eq r5.1 s6 (by rw [e6f]) (by rw [e6f])
  have hr1 : r.1 = s6 := by rw [hr]
  rw [hr1]
  constructor
  · exact statesMono_trans _ _ _ p1.1 (statesMono_trans _ _ _ p2.1
      (statesMono_trans _ _ _ ma (statesMono_trans _ _ _ p4.1
        (statesMono_trans _ _ _ m5 p6.1))))
  · intro hi
    exact p6.2 (i5 (p4.2 (ia (p2.2 (p1.2 hi)))))

theorem execWorkItem_inv (env : Env Cov Info Bnd) (s : State G Cov Info)
    (item : WorkItem G Cov) (r : State G Cov Info × List (Event G Cov))
    (h : execWorkItem env s item = some r) :
    statesMono s r.1 ∧ (IntraInv s → IntraInv r.1) := by
  cases item with
  | computeScan idx m ins fin pose cov =>
    exact computeConstraintsForScan_inv env s idx m ins fin pose cov r h
  | addImu th payload =>
    simp only [execWorkItem, Option.bind_eq_bind, Option.bind_eq_some,
      Option.some.injEq] at h
    obtain ⟨tid, htid, hr⟩ := h
    rw [← hr]
    exact intraInv_of_eq s _ rfl rfl

theorem addWorkItem_inv (env : Env Cov Info Bnd) (s : State G Cov Info)
    (item : WorkItem G Cov) (r : State G Cov Info × List (Event G Cov))
    (h : addWorkItem env s item = some r) :
    statesMono s r.1 ∧ (IntraInv s → IntraInv r.1) := by
  rcases addWorkItem_cases env s item r h with ⟨hq, hex⟩ | ⟨q, hq, hr⟩
  · exact execWorkItem_inv env s item r hex
  · rw [hr]
    exact intraInv_of_eq s _ rfl rfl

theorem statesAt_pad_append (states : List (List (SubmapState G))) (tid n : Nat)
    (x : SubmapState G) (id : SubmapId) (st : SubmapState G)
    (h : statesAt states id = some st) :
    statesAt (listModify (fun l => l ++ [x]) tid (padTo states n)) id = some st := by
  unfold statesAt at h ⊢
  obtain ⟨l, hl1, hl2⟩ := Option.bind_eq_some.mp h
  have hlt : id.trajectory_id < states.length := by
    by_contra hge
    push_neg at hge
    rw [List.get?_eq_none.mpr hge] at hl1
    exact Option.noConfusion hl1
  have hpad : (padTo states n).get? id.trajectory_id = some l := by
    unfold padTo
    rw [List.get?_append hlt]
    exact hl1
  by_cases hid : id.trajectory_id = tid
  · rw [← hid, listModify_get?_map, hpad]
    have hslt : id.submap_index < l.length := by
      by_contra hge
      push_neg at hge
      rw [List.get?_eq_none.mpr hge] at hl2
      exact Option.noConfusion hl2
    show (l ++ [x]).get? id.submap_index = some st
    rw [List.get?_append hslt]
    exact hl2
  · rw [listModify_get?_ne _ _ _ _ hid, hpad]
    exact hl2

theorem ensureSampler_submap_states (x : State G Cov Info) (tid : Nat)
    (str : Nat → Bool) :
    (ensureSampler x tid str).submap_states = x.submap_states := by
  unfold ensureSampler
  split <;> rfl

theorem ensureSampler_constraints (x : State G Cov Info) (tid : Nat)
    (str : Nat → Bool) :
    (ensureSampler x tid str).constraints = x.constraints := by
  unfold ensureSampler
  split <;> rfl

theorem addScan_inv (env : Env Cov Info Bnd) (s : State G Cov Info)
    (th : Nat) (lp : Nat → G) (t : Nat) (p : G) (c : Cov) (m : Submap G)
    (ins : List (Submap G)) (str : Nat → Bool)
    (r : State G Cov Info × List (Event G Cov))
    (h : addScan env s th lp t p c m ins str = some r) :
    statesMono s r.1 ∧ (IntraInv s → IntraInv r.1) := by
  unfold addScan at h
  simp only [Option.bind_eq_bind, Option.bind_eq_some] at h
  obtain ⟨tid, htid, last, hlast, first, hfirst, haw⟩ := h
  split at haw
  · obtain ⟨mw, iw⟩ := addWorkItem_inv env _ _ _ haw
    refine ⟨statesMono_trans _ _ _ ?_ mw, fun hi => iw ?_⟩
    · refine statesMono_of_states_eq _ _ ?_
      rw [ensureSampler_submap_states]
    · refine intraInv_transport _ _ ?_ (statesMono_of_states_eq _ _ ?_) hi
      · rw [ensureSampler_constraints]
      · rw [ensureSampler_submap_states]
  · obtain ⟨mw, iw⟩ := addWorkItem_inv env _ _ _ haw
    refine ⟨statesMono_trans _ _ _ ?_ mw, fun hi => iw ?_⟩
    · refine statesMono_of_table _ _ ?_
      intro id st hst
      rw [ensureSampler_submap_states]
      exact statesAt_pad_append _ _ _ _ _ _ hst
    · refine intraInv_transport _ _ ?_ ?_ hi
      · rw [ensureSampler_constraints]
      · refine statesMono_of_table _ _ ?_
        intro id st hst
        rw [ensureSampler_submap_states]
        exact statesAt_pad_append _ _ _ _ _ _ hst

theorem drainLoop_inv (env : Env Cov Info Bnd) :
    ∀ (q : List (WorkItem G Cov)) (s : State G Cov Info)
    (r : State G Cov Info × List (Event G Cov)),
    drainLoop env s q = some r →
    statesMono s r.1 ∧ (IntraInv s → IntraInv r.1) := by
  intro q
  induction q with
  | nil =>
    intro s r h
    simp only [drainLoop] at h
    split at h <;> (injection h with h; rw [← h]; exact intraInv_of_eq s _ rfl rfl)
  | cons item rest ih =>
    intro s r h
    simp only [drainLoop] at h
    split at h
    · injection h with h
      rw [← h]
      exact intraInv_of_eq s _ rfl rfl
    · simp only [Option.bind_eq_bind, Option.bind_eq_some, Option.pure_def,
        Option.some.injEq] at h
      obtain ⟨r1, h1, r2, h2, hr⟩ := h
      obtain ⟨m1, i1⟩ := execWorkItem_inv env _ _ _ h1
      obtain ⟨m2, i2⟩ := ih _ _ h2
      rw [← hr]
      constructor
      · exact statesMono_trans _ _ _ (statesMono_of_states_eq _ _ rfl)
          (statesMono_trans _ _ _ m1
            (statesMono_trans _ _ _ (statesMono_of_states_eq _ _ rfl) m2))
      · intro hi
        refine i2 ?_
        refine intraInv_transport _ _ rfl (statesMono_of_states_eq _ _ rfl) ?_
        refine i1 ?_
        exact intraInv_transport _ _ rfl (statesMono_of_states_eq _ _ rfl) hi

theorem handleQueueCallback_inv (env : Env Cov Info Bnd) (o : SolveOracle G)
    (res : MatcherResult G Info) (s : State G Cov Info)
    (r : State G Cov Info × List (Event G Cov))
    (h : handleQueueCallback env o res s = some r) :
    statesMono s r.1 ∧ (IntraInv s → IntraInv r.1) := by
  unfold handleQueueCallback at h
  revert h
  cases hq : s.scan_queue with
  | none => intro h; exact Option.noConfusion h
  | some q =>
  intro h
  simp only [Option.bind_eq_bind, Option.some_bind, Option.bind_eq_some,
    Option.pure_def, Option.some.injEq] at h
  obtain ⟨r2, h2, r4, h4, hr⟩ := h
  have e2 := runOptimization_effect _ _ _ h2
  obtain ⟨m4, i4⟩ := drainLoop_inv env _ _ _ h4
  have hs1 : statesMono s { s with constraints := s.constraints ++ interify res } :=
    statesMono_of_states_eq _ _ rfl
  have m2 : statesMono { s with constraints := s.constraints ++ interify res } r2.1 :=
    statesMono_of_states_eq _ r2.1 e2.2.2.2.2.2.1
  rw [← hr]
  constructor
  · exact statesMono_trans _ _ _ hs1 (statesMono_trans _ _ _ m2
      (statesMono_trans _ _ _ (statesMono_of_states_eq _ _ rfl) m4))
  · intro hi
    refine i4 ?_
    refine intraInv_transport _ _ rfl (statesMono_of_states_eq _ _ rfl) ?_
    refine intraInv_transport _ _ e2.2.2.2.2.1 m2 ?_
    exact intraInv_append_inter s _ res rfl hs1 hi

theorem intraInv_reach (env : Env Cov Info Bnd) :
    ∀ s : State G Cov Info, Reach env s → IntraInv s := by
  intro s hreach
  induction hreach with
  | init => intro c hc htag; exact absurd hc (List.not_mem_nil c)
  | @next s0 s1 ev0 op hre hstep ih =>
    cases op with
    | addScan th lp t p c m ins str =>
      simp only [step] at hstep
      exact (addScan_inv _ _ _ _ _ _ _ _ _ _ _ hstep).2 ih
    | addImuData th payload =>
      simp only [step] at hstep
      unfold addImuData at hstep
      exact (addWorkItem_inv _ _ _ _ hstep).2
        (intraInv_transport _ _ rfl (statesMono_of_states_eq _ _ rfl) ih)
    | fireCallback o res =>
      simp only [step] at hstep
      exact (handleQueueCallback_inv _ _ _ _ _ hstep).2 ih
    | absorbResult res =>
      simp only [step, Option.some.injEq] at hstep
      injection hstep with ha hb
      rw [← ha]
      exact intraInv_append_inter s0 _ res rfl (statesMono_of_states_eq _ _ rfl) ih
    | runFinalOptimization wres o =>
      simp only [step] at hstep
      unfold runFinalOptimization at hstep
      have e := runOptimization_effect _ _ _ hstep
      refine intraInv_transport _ _ e.2.2.2.2.1
        (statesMono_of_states_eq _ _ e.2.2.2.2.2.1)
        (intraInv_append_inter s0 _ wres rfl (statesMono_of_states_eq _ _ rfl) ih)

/-- C7: for every submap in a scan's insertion list the loop of lines
242-261 asserts the submap unfinished, emplaces the scan's node id into
the submap's node_ids set, and appends exactly one INTRA_SUBMAP constraint
whose relative transform is local_pose⁻¹ * pose and whose sqrt-information
is the clamped SPD square-root inverse of the covariance; consequently on
every reachable state every intra-submap constraint's node id is a member
of the referenced submap's node_ids. -/
theorem claim_C7 :
    (∀ (env : Env Cov Info Bnd) (node_id : NodeId) (pose : G) (cov : Cov)
        (submap : Submap G) (rest : List (Submap G)) (s s1 : State G Cov Info),
      addIntraConstraints env node_id pose cov s (submap :: rest) = some s1 →
      ∃ (submap_id : SubmapId) (st : SubmapState G) (s2 : State G Cov Info),
        getSubmapId s submap = some submap_id ∧
        stateAt s submap_id = some st ∧
        st.finished = false ∧
        s2.submap_states = modifySubmapState s.submap_states submap_id
          (fun t => { t with node_ids := setEmplace node_id t.node_ids }) ∧
        s2.constraints = s.constraints ++
          [⟨submap_id, node_id,
            ⟨submap.local_pose⁻¹ * pose,
             env.computeSpdMatrixSqrtInverse cov
               env.options.lower_covariance_eigenvalue_bound⟩,
            ConstraintTag.INTRA_SUBMAP⟩] ∧
        s2 = { s with submap_states := s2.submap_states, constraints := s2.constraints } ∧
        addIntraConstraints env node_id pose cov s2 rest = some s1) ∧
    (∀ (env : Env Cov Info Bnd) (node_id : NodeId) (pose : G) (cov : Cov)
        (l : List (Submap G)) (s s1 : State G Cov Info),
      addIntraConstraints env node_id pose cov s l = some s1 →
      s1.constraints.length = s.constraints.length + l.length) ∧
    (∀ (env : Env Cov Info Bnd) (s : State G Cov Info), Reach env s → IntraInv s) :=
  ⟨fun env nid pose cov submap rest s s1 h =>
      addIntraConstraints_cons env nid pose cov submap rest s s1 h,
   fun env nid pose cov l s s1 h =>
      addIntraConstraints_count env nid pose cov l s s1 h,
   fun env s hreach => intraInv_reach env s hreach⟩

/-- C7 witness: inserting node 0/0 into the single unfinished submap of a
concrete state, and the invariant on the freshly constructed graph. -/
theorem claim_C7_witness :
    (∃ (submap_id : SubmapId) (st : SubmapState (Multiplicative Int))
        (s2 : State (Multiplicative Int) Nat Nat),
      getSubmapId wStateC7 wSubA = some submap_id ∧
      stateAt wStateC7 submap_id = some st ∧
      st.finished = false ∧
      s2.submap_states = modifySubmapState wStateC7.submap_states submap_id
        (fun t => { t with node_ids := setEmplace (⟨0, 0⟩ : NodeId) t.node_ids }) ∧
      s2.constraints = wStateC7.constraints ++
        [⟨submap_id, ⟨0, 0⟩,
          ⟨wSubA.local_pose⁻¹ * w 5,
           wEnv0.computeSpdMatrixSqrtInverse 3
             wEnv0.options.lower_covariance_eigenvalue_bound⟩,
          ConstraintTag.INTRA_SUBMAP⟩] ∧
      s2 = { wStateC7 with submap_states := s2.submap_states, constraints := s2.constraints } ∧
      addIntraConstraints wEnv0 ⟨0, 0⟩ (w 5) 3 s2 [] = some wStateC7res) ∧
    wStateC7res.constraints.length = wStateC7.constraints.length + 1 ∧
    IntraInv (initState (Multiplicative Int) Nat Nat) :=
  ⟨claim_C7.1 wEnv0 ⟨0, 0⟩ (w 5) 3 wSubA [] wStateC7 wStateC7res rfl,
   claim_C7.2.1 wEnv0 ⟨0, 0⟩ (w 5) 3 [wSubA] wStateC7 wStateC7res rfl,
   claim_C7.2.2 wEnv0 (initState (Multiplicative Int) Nat Nat) Reach.init⟩

theorem decidesFor_append (fid : SubmapId) (a b : List (Event G Cov)) :
    decidesFor fid (a ++ b) = decidesFor fid a ++ decidesFor fid b := by
  simp only [decidesFor, List.filterMap_append]

theorem decidesFor_cons_decide (fid sid : SubmapId) (i : Nat)
    (tail : List (Event G Cov)) :
    decidesFor fid (Event.decide i sid :: tail) =
      (if sid = fid then [i] else []) ++ decidesFor fid tail := by
  by_cases hsf : sid = fid
  · simp only [decidesFor, List.filterMap_cons, if_pos hsf]
    rfl
  · simp only [decidesFor, List.filterMap_cons, if_neg hsf]
    rfl

theorem computeConstraintElse_decides (fid : SubmapId) (s : State G Cov Info)
    (i : Nat) (sid : SubmapId) (nid : NodeId) (rp : G) (stid : Nat)
    (r : State G Cov Info × List (Event G Cov))
    (h : computeConstraintElse s i sid nid rp stid = some r) :
    decidesFor fid r.2 = [] := by
  simp only [computeConstraintElse] at h
  split at h
  · simp only [Option.bind_eq_bind, Option.bind_eq_some, Option.some.injEq] at h
    obtain ⟨st, hst, h⟩ := h
    rw [← h]
    rfl
  · injection h with h
    rw [← h]
    rfl

theorem computeConstraint_decides (fid : SubmapId) (s : State G Cov Info) (i : Nat)
    (sid : SubmapId) (r : State G Cov Info × List (Event G Cov))
    (h : computeConstraint s i sid = some r) :
    decidesFor fid r.2 = if sid = fid then [i] else [] := by
  unfold computeConstraint at h
  cases hnid : s.scan_index_to_node_id.get? i with
  | none => rw [hnid] at h; exact Option.noConfusion h
  | some nid =>
  rw [hnid] at h
  simp only [Option.bind_eq_bind, Option.some_bind] at h
  cases hsd : optSubmapAt s.opt_submap_data sid with
  | none => rw [hsd] at h; exact Option.noConfusion h
  | some sd =>
  rw [hsd] at h
  simp only [Option.some_bind] at h
  cases hnd : optNodeAt s.opt_node_data nid with
  | none => rw [hnd] at h; exact Option.noConfusion h
  | some nd =>
  rw [hnd] at h
  simp only [Option.some_bind] at h
  cases hnode : s.trajectory_nodes.get? i with
  | none => rw [hnode] at h; exact Option.noConfusion h
  | some node =>
  rw [hnode] at h
  simp only [Option.some_bind] at h
  by_cases hcond : node.trajectory_id ≠ sid.trajectory_id
  · rw [if_pos hcond] at h
    cases hpr : pulse s node.trajectory_id with
    | none => rw [hpr] at h; exact Option.noConfusion h
    | some pr =>
    rw [hpr] at h
    simp only [Option.some_bind] at h
    by_cases hfire : pr.1 = true
    · rw [if_pos hfire] at h
      cases hst : stateAt pr.2 sid with
      | none => rw [hst] at h; exact Option.noConfusion h
      | some st =>
      rw [hst] at h
      simp only [Option.some_bind] at h
      injection h with h
      rw [← h]
      rw [decidesFor_cons_decide]
      show (if sid = fid then [i] else []) ++ ([] : List Nat) = if sid = fid then [i] else []
      exact List.append_nil _
    · rw [if_neg hfire] at h
      cases hce : computeConstraintElse pr.2 i sid nid
          (sd.pose⁻¹ * nd.point_cloud_pose) node.trajectory_id with
      | none => rw [hce] at h; exact Option.noConfusion h
      | some r2 =>
      rw [hce] at h
      simp only [Option.some_bind] at h
      injection h with h
      rw [← h]
      rw [decidesFor_cons_decide]
      rw [computeConstraintElse_decides fid _ _ _ _ _ _ _ hce]
      exact List.append_nil _
  · rw [if_neg hcond] at h
    cases hce : computeConstraintElse s i sid nid
        (sd.pose⁻¹ * nd.point_cloud_pose) node.trajectory_id with
    | none => rw [hce] at h; exact Option.noConfusion h
    | some r2 =>
    rw [hce] at h
    simp only [Option.some_bind] at h
    injection h with h
    rw [← h]
    rw [decidesFor_cons_decide]
    rw [computeConstraintElse_decides fid _ _ _ _ _ _ _ hce]
    exact List.append_nil _

theorem oldScanLoop_decides (fid : SubmapId) (node_ids : List NodeId) :
    ∀ (l : List Nat) (s : State G Cov Info)
    (r : State G Cov Info × List (Event G Cov)),
    oldScanLoop fid node_ids s l = some r →
    decidesFor fid r.2 = l.filter (unknownScan s.scan_index_to_node_id node_ids) := by
  intro l
  induction l with
  | nil =>
    intro s r h
    simp only [oldScanLoop, Option.some.injEq] at h
    rw [← h]
    rfl
  | cons i rest ih =>
    intro s r h
    unfold oldScanLoop at h
    cases hnid : s.scan_index_to_node_id.get? i with
    | none => rw [hnid] at h; exact Option.noConfusion h
    | some nid =>
    rw [hnid] at h
    simp only [Option.bind_eq_bind, Option.some_bind] at h
    have hfilter : unknownScan s.scan_index_to_node_id node_ids i =
        decide (nid ∉ node_ids) := by
      unfold unknownScan
      rw [hnid]
    by_cases hmem : nid ∈ node_ids
    · rw [if_pos hmem] at h
      have e := ih _ _ h
      have hcond2 : unknownScan s.scan_index_to_node_id node_ids i = false := by
        rw [hfilter]
        simp [hmem]
      rw [List.filter_cons, hcond2, if_neg Bool.false_ne_true]
      exact e
    · rw [if_neg hmem] at h
      cases h1 : computeConstraint s i fid with
      | none => rw [h1] at h; exact Option.noConfusion h
      | some r1 =>
      rw [h1] at h
      simp only [Option.some_bind] at h
      cases h2 : oldScanLoop fid node_ids r1.1 rest with
      | none => rw [h2] at h; exact Option.noConfusion h
      | some r2 =>
      rw [h2] at h
      simp only [Option.some_bind] at h
      injection h with h
      rw [← h]
      have e1 := computeConstraint_decides fid _ _ _ _ h1
      have e2 := ih _ _ h2
      have ef := computeConstraint_frame _ _ _ _ h1
      have htab : r1.1.scan_index_to_node_id = s.scan_index_to_node_id := by
        rw [ef]
      rw [htab] at e2
      have hcond2 : unknownScan s.scan_index_to_node_id node_ids i = true := by
        rw [hfilter]
        simp [hmem]
      show decidesFor fid (r1.2 ++ r2.2) = _
      rw [decidesFor_append, e1, if_pos rfl, e2]
      rw [List.filter_cons, hcond2, if_pos rfl]
      rfl

/-- C8: when the first insertion submap of a scan arrives already
finished, AddScan hands the computation that submap in the finished slot,
and the completion pass of lines 280-290 first decides every previously
allocated scan whose node id is not in the submap's node_ids set against
that submap (lines 206-216), and only afterwards — after all decide
events — flips the submap's graph-side finished flag, asserted false
beforehand and true afterwards. -/
theorem claim_C8 :
    (∀ (env : Env Cov Info Bnd) (s : State G Cov Info) (th : Nat) (lp : Nat → G)
        (t : Nat) (p : G) (c : Cov) (m : Submap G) (ins : List (Submap G))
        (str : Nat → Bool) (r : State G Cov Info × List (Event G Cov)),
      addScan env s th lp t p c m ins str = some r →
      ∃ (s4 : State G Cov Info) (idx : Nat) (first : Submap G),
        ins.head? = some first ∧
        addWorkItem env s4 (WorkItem.computeScan idx m ins
          (if first.finished then some first else none) p c) = some r) ∧
    (∀ (s : State G Cov Info) (fsub : Submap G)
        (r : State G Cov Info × List (Event G Cov)),
      handleFinishedSubmap s (some fsub) = some r →
      ∃ (fid : SubmapId) (st : SubmapState G)
        (rr : State G Cov Info × List (Event G Cov)),
        getSubmapId s fsub = some fid ∧
        stateAt s fid = some st ∧
        st.finished = false ∧
        computeConstraintsForOldScans s fsub = some rr ∧
        decidesFor fid rr.2 = (List.range s.scan_index_to_node_id.length).filter
          (unknownScan s.scan_index_to_node_id st.node_ids) ∧
        r.2 = rr.2 ++ [Event.finishSubmap fid] ∧
        (∃ st1, stateAt r.1 fid = some st1 ∧ st1.finished = true)) := by
  constructor
  · intro env s th lp t p c m ins str r h
    unfold addScan at h
    simp only [Option.bind_eq_bind, Option.bind_eq_some] at h
    obtain ⟨tid, htid, last, hlast, first, hfirst, haw⟩ := h
    exact ⟨_, _, first, hfirst, haw⟩
  · intro s fsub r h
    simp only [handleFinishedSubmap, Option.bind_eq_bind, Option.bind_eq_some,
      Option.pure_def, Option.some.injEq] at h
    obtain ⟨fid, hfid, st, hst, u, hgu, rr, hrr, hr⟩ := h
    have hfin : st.finished = false := by
      by_cases hc : st.finished = false
      · exact hc
      · rw [guard, if_neg hc] at hgu
        exact Option.noConfusion hgu
    have hdec : decidesFor fid rr.2 =
        (List.range s.scan_index_to_node_id.length).filter
          (unknownScan s.scan_index_to_node_id st.node_ids) := by
      unfold computeConstraintsForOldScans at hrr
      rw [hfid] at hrr
      simp only [Option.bind_eq_bind, Option.some_bind] at hrr
      rw [hst] at hrr
      simp only [Option.some_bind] at hrr
      exact oldScanLoop_decides fid st.node_ids _ _ _ hrr
    have hev : r.2 = rr.2 ++ [Event.finishSubmap fid] := by
      rw [← hr]
    have hflag : ∃ st1, stateAt r.1 fid = some st1 ∧ st1.finished = true := by
      have hr1 : r.1 = { rr.1 with submap_states := modifySubmapState rr.1.submap_states fid (fun tt => { tt with finished := true }) } := by
        rw [← hr]
      have ef := computeConstraintsForOldScans_frame _ _ _ hrr
      have hstates : rr.1.submap_states = s.submap_states := by
        rw [ef]
      refine ⟨{ st with finished := true }, ?_, rfl⟩
      rw [hr1]
      show statesAt (modifySubmapState rr.1.submap_states fid
        (fun tt => { tt with finished := true })) fid = some { st with finished := true }
      rw [statesAt_modify, if_pos rfl, hstates]
      rw [stateAt_statesAt] at hst
      rw [hst]
      rfl
    exact ⟨fid, st, rr, hfid, hst, hfin, hrr, hdec, hev, hflag⟩

/-- C8 witness: buffering a scan whose first insertion submap is already
finished, and completing a concrete submap against one old scan. -/
theorem claim_C8_witness :
    (∃ (s4 : State (Multiplicative Int) Nat Nat) (idx : Nat)
        (first : Submap (Multiplicative Int)),
      [wSubF].head? = some first ∧
      addWorkItem wEnv0 s4 (WorkItem.computeScan idx wSubA [wSubF]
        (if first.finished then some first else none) (w 1) 2) = some wC8Ares) ∧
    (∃ (fid : SubmapId) (st : SubmapState (Multiplicative Int))
        (rr : State (Multiplicative Int) Nat Nat × List (Event (Multiplicative Int) Nat)),
      getSubmapId wStateC8 wSubA = some fid ∧
      stateAt wStateC8 fid = some st ∧
      st.finished = false ∧
      computeConstraintsForOldScans wStateC8 wSubA = some rr ∧
      decidesFor fid rr.2 = (List.range wStateC8.scan_index_to_node_id.length).filter
        (unknownScan wStateC8.scan_index_to_node_id st.node_ids) ∧
      wC8Br.2 = rr.2 ++ [Event.finishSubmap fid] ∧
      (∃ st1, stateAt wC8Br.1 fid = some st1 ∧ st1.finished = true)) :=
  ⟨(@claim_C8 (Multiplicative Int) Nat Nat Nat _).1 wEnv0 wStateC8A 7
     (fun _ => w 0) 3 (w 1) 2 wSubA [wSubF] wStr wC8Ares rfl,
   (@claim_C8 (Multiplicative Int) Nat Nat Nat _).2 wStateC8 wSubA wC8Br rfl⟩

theorem itemsRun_append (a b : List (Event G Cov)) :
    itemsRun (a ++ b) = itemsRun a ++ itemsRun b := by
  simp only [itemsRun, List.filterMap_append]

theorem itemsRun_cons_run (item : WorkItem G Cov) (tail : List (Event G Cov)) :
    itemsRun (Event.runItem item :: tail) = item :: itemsRun tail := rfl

theorem computeConstraintElse_items (s : State G Cov Info)
    (i : Nat) (sid : SubmapId) (nid : NodeId) (rp : G) (stid : Nat)
    (r : State G Cov Info × List (Event G Cov))
    (h : computeConstraintElse s i sid nid rp stid = some r) :
    itemsRun r.2 = [] := by
  simp only [computeConstraintElse] at h
  split at h
  · simp only [Option.bind_eq_bind, Option.bind_eq_some, Option.some.injEq] at h
    obtain ⟨st, hst, h⟩ := h
    rw [← h]
    rfl
  · injection h with h
    rw [← h]
    rfl

theorem computeConstraint_items (s : State G Cov Info) (i : Nat)
    (sid : SubmapId) (r : State G Cov Info × List (Event G Cov))
    (h : computeConstraint s i sid = some r) :
    itemsRun r.2 = [] := by
  unfold computeConstraint at h
  cases hnid : s.scan_index_to_node_id.get? i with
  | none => rw [hnid] at h; exact Option.noConfusion h
  | some nid =>
  rw [hnid] at h
  simp only [Option.bind_eq_bind, Option.some_bind] at h
  cases hsd : optSubmapAt s.opt_submap_data sid with
  | none => rw [hsd] at h; exact Option.noConfusion h
  | some sd =>
  rw [hsd] at h
  simp only [Option.some_bind] at h
  cases hnd : optNodeAt s.opt_node_data nid with
  | none => rw [hnd] at h; exact Option.noConfusion h
  | some nd =>
  rw [hnd] at h
  simp only [Option.some_bind] at h
  cases hnode : s.trajectory_nodes.get? i with
  | none => rw [hnode] at h; exact Option.noConfusion h
  | some node =>
  rw [hnode] at h
  simp only [Option.some_bind] at h
  by_cases hcond : node.trajectory_id ≠ sid.trajectory_id
  · rw [if_pos hcond] at h
    cases hpr : pulse s node.trajectory_id with
    | none => rw [hpr] at h; exact Option.noConfusion h
    | some pr =>
    rw [hpr] at h
    simp only [Option.some_bind] at h
    by_cases hfire : pr.1 = true
    · rw [if_pos hfire] at h
      cases hst : stateAt pr.2 sid with
      | none => rw [hst] at h; exact Option.noConfusion h
      | some st =>
      rw [hst] at h
      simp only [Option.some_bind] at h
      injection h with h
      rw [← h]
      rfl
    · rw [if_neg hfire] at h
      cases hce : computeConstraintElse pr.2 i sid nid
          (sd.pose⁻¹ * nd.point_cloud_pose) node.trajectory_id with
      | none => rw [hce] at h; exact Option.noConfusion h
      | some r2 =>
      rw [hce] at h
      simp only [Option.some_bind] at h
      injection h with h
      rw [← h]
      show itemsRun r2.2 = []
      exact computeConstraintElse_items _ _ _ _ _ _ _ hce
  · rw [if_neg hcond] at h
    cases hce : computeConstraintElse s i sid nid
        (sd.pose⁻¹ * nd.point_cloud_pose) node.trajectory_id with
    | none => rw [hce] at h; exact Option.noConfusion h
    | some r2 =>
    rw [hce] at h
    simp only [Option.some_bind] at h
    injection h with h
    rw [← h]
    show itemsRun r2.2 = []
    exact computeConstraintElse_items _ _ _ _ _ _ _ hce

theorem matchAgainstFinished_items (nid : NodeId) (i : Nat) :
    ∀ (l : List SubmapId) (s : State G Cov Info)
    (r : State G Cov Info × List (Event G Cov)),
    matchAgainstFinished nid i s l = some r → itemsRun r.2 = [] := by
  intro l
  induction l with
  | nil =>
    intro s r h
    simp only [matchAgainstFinished, Option.some.injEq] at h
    rw [← h]
    rfl
  | cons id rest ih =>
    intro s r h
    simp only [matchAgainstFinished, Option.bind_eq_bind, Option.bind_eq_some,
      Option.pure_def, Option.some.injEq] at h
    obtain ⟨st, hst, _, _, r1, h1, r2, h2, hr⟩ := h
    rw [← hr]
    show itemsRun (r1.2 ++ r2.2) = []
    rw [itemsRun_append, computeConstraint_items _ _ _ _ h1, ih _ _ h2]
    rfl

theorem oldScanLoop_items (sid : SubmapId) (node_ids : List NodeId) :
    ∀ (l : List Nat) (s : State G Cov Info)
    (r : State G Cov Info × List (Event G Cov)),
    oldScanLoop sid node_ids s l = some r → itemsRun r.2 = [] := by
  intro l
  induction l with
  | nil =>
    intro s r h
    simp only [oldScanLoop, Option.some.injEq] at h
    rw [← h]
    rfl
  | cons i rest ih =>
    intro s r h
    unfold oldScanLoop at h
    cases hnid : s.scan_index_to_node_id.get? i with
    | none => rw [hnid] at h; exact Option.noConfusion h
    | some nid =>
    rw [hnid] at h
    simp only [Option.bind_eq_bind, Option.some_bind] at h
    by_cases hmem : nid ∈ node_ids
    · rw [if_pos hmem] at h
      exact ih _ _ h
    · rw [if_neg hmem] at h
      cases h1 : computeConstraint s i sid with
      | none => rw [h1] at h; exact Option.noConfusion h
      | some r1 =>
      rw [h1] at h
      simp only [Option.some_bind] at h
      cases h2 : oldScanLoop sid node_ids r1.1 rest with
      | none => rw [h2] at h; exact Option.noConfusion h
      | some r2 =>
      rw [h2] at h
      simp only [Option.some_bind] at h
      injection h with h
      rw [← h]
      show itemsRun (r1.2 ++ r2.2) = []
      rw [itemsRun_append, computeConstraint_items _ _ _ _ h1, ih _ _ h2]
      rfl

theorem computeConstraintsForOldScans_items (s : State G Cov Info)
    (submap : Submap G) (r : State G Cov Info × List (Event G Cov))
    (h : computeConstraintsForOldScans s submap = some r) :
    itemsRun r.2 = [] := by
  simp only [computeConstraintsForOldScans, Option.bind_eq_bind,
    Option.bind_eq_some] at h
  obtain ⟨sid, hsid, st, hst, h⟩ := h
  exact oldScanLoop_items _ _ _ _ _ h

theorem handleFinishedSubmap_items (s : State G Cov Info)
    (fin : Option (Submap G)) (r : State G Cov Info × List (Event G Cov))
    (h : handleFinishedSubmap s fin = some r) : itemsRun r.2 = [] := by
  cases fin with
  | none =>
    simp only [handleFinishedSubmap, Option.some.injEq] at h
    rw [← h]
    rfl
  | some fsub =>
    simp only [handleFinishedSubmap, Option.bind_eq_bind, Option.bind_eq_some,
      Option.pure_def, Option.some.injEq] at h
    obtain ⟨fid, hfid, st, hst, u, hgu, rr, hrr, hr⟩ := h
    rw [← hr]
    show itemsRun (rr.2 ++ [Event.finishSubmap fid]) = []
    rw [itemsRun_append, computeConstraintsForOldScans_items _ _ _ hrr]
    rfl

theorem computeConstraintsForScan_items (env : Env Cov Info Bnd)
    (s : State G Cov Info) (scan_index : Nat) (m : Submap G)
    (ins : List (Submap G)) (fin : Option (Submap G)) (pose : G) (cov : Cov)
    (r : State G Cov Info × List (Event G Cov))
    (h : computeConstraintsForScan env s scan_index m ins fin pose cov = some r) :
    itemsRun r.2 = [] := by
  obtain ⟨s1, r2, s3, r4, r5, s6, h1, h2, h3, h4, h5, h6, hr⟩ :=
    computeConstraintsForScan_decomp env s scan_index m ins fin pose cov r h
  rw [hr]
  show itemsRun (r4.2 ++ r5.2 ++ [Event.notifyEndOfScan scan_index]) = []
  rw [itemsRun_append, itemsRun_append, matchAgainstFinished_items _ _ _ _ _ h4,
    handleFinishedSubmap_items _ _ _ h5]
  rfl

theorem execWorkItem_items (env : Env Cov Info Bnd) (s : State G Cov Info)
    (item : WorkItem G Cov) (r : State G Cov Info × List (Event G Cov))
    (h : execWorkItem env s item = some r) : itemsRun r.2 = [] := by
  cases item with
  | computeScan idx m ins fin pose cov =>
    exact computeConstraintsForScan_items env s idx m ins fin pose cov r h
  | addImu th payload =>
    simp only [execWorkItem, Option.bind_eq_bind, Option.bind_eq_some,
      Option.some.injEq] at h
    obtain ⟨tid, htid, hr⟩ := h
    rw [← hr]
    rfl

theorem drainLoop_fifo (env : Env Cov Info Bnd) :
    ∀ (q : List (WorkItem G Cov)) (s : State G Cov Info)
    (r : State G Cov Info × List (Event G Cov)),
    drainLoop env s q = some r →
    ∃ k, k ≤ q.length ∧ itemsRun r.2 = q.take k ∧
      ((r.1.run_loop_closure = true ∧ r.1.scan_queue = some (q.drop k)) ∨
       (k = q.length ∧ r.1.run_loop_closure = false ∧ r.1.scan_queue = none)) := by
  intro q
  induction q with
  | nil =>
    intro s r h
    simp only [drainLoop] at h
    by_cases hf : s.run_loop_closure = true
    · rw [if_pos hf] at h
      injection h with h
      rw [← h]
      exact ⟨0, Nat.zero_le _, rfl, Or.inl ⟨hf, rfl⟩⟩
    · rw [if_neg hf] at h
      injection h with h
      rw [← h]
      have hf2 : s.run_loop_closure = false := by
        cases hb : s.run_loop_closure
        · rfl
        · exact absurd hb hf
      exact ⟨0, Nat.zero_le _, rfl, Or.inr ⟨rfl, hf2, rfl⟩⟩
  | cons item rest ih =>
    intro s r h
    simp only [drainLoop] at h
    by_cases hf : s.run_loop_closure = true
    · rw [if_pos hf] at h
      injection h with h
      rw [← h]
      exact ⟨0, Nat.zero_le _, rfl, Or.inl ⟨hf, rfl⟩⟩
    · rw [if_neg hf] at h
      simp only [Option.bind_eq_bind, Option.bind_eq_some, Option.pure_def,
        Option.some.injEq] at h
      obtain ⟨r1, h1, r2, h2, hr⟩ := h
      obtain ⟨k, hk, hitems, hexit⟩ := ih _ _ h2
      rw [← hr]
      refine ⟨k + 1, Nat.succ_le_succ hk, ?_, ?_⟩
      · show itemsRun (Event.runItem item :: (r1.2 ++ r2.2)) = (item :: rest).take (k + 1)
        rw [itemsRun_cons_run, itemsRun_append, execWorkItem_items _ _ _ _ h1]
        show item :: itemsRun r2.2 = item :: rest.take k
        rw [hitems]
      · rcases hexit with ⟨hflag, hq⟩ | ⟨hk2, hflag, hq⟩
        · exact Or.inl ⟨hflag, hq⟩
        · refine Or.inr ⟨?_, hflag, hq⟩
          show k + 1 = rest.length + 1
          rw [hk2]

theorem handleQueueCallback_decomp (env : Env Cov Info Bnd) (o : SolveOracle G)
    (res : MatcherResult G Info) (s : State G Cov Info)
    (r : State G Cov Info × List (Event G Cov))
    (h : handleQueueCallback env o res s = some r) :
    ∃ q r2 r4, s.scan_queue = some q ∧
      runOptimization o { s with constraints := s.constraints ++ interify res } = some r2 ∧
      drainLoop env { r2.1 with num_scans_since_last_loop_closure := 0, run_loop_closure := false } q = some r4 ∧
      r = (r4.1, r2.2 ++ r4.2) := by
  unfold handleQueueCallback at h
  revert h
  cases hq : s.scan_queue with
  | none => intro h; exact Option.noConfusion h
  | some q =>
  intro h
  simp only [Option.bind_eq_bind, Option.some_bind, Option.bind_eq_some,
    Option.pure_def, Option.some.injEq] at h
  obtain ⟨r2, h2, r4, h4, hr⟩ := h
  exact ⟨q, r2, r4, rfl, h2, h4, hr.symm⟩

theorem runRounds_cons (env : Env Cov Info Bnd) (o : SolveOracle G)
    (res : MatcherResult G Info)
    (rest : List (SolveOracle G × MatcherResult G Info))
    (s : State G Cov Info) (rr : State G Cov Info × List (Event G Cov))
    (h : runRounds env ((o, res) :: rest) s = some rr) :
    ∃ r1, handleQueueCallback env o res s = some r1 ∧
      ((r1.1.scan_queue = none ∧ rr = r1) ∨
       (∃ q2 r2, r1.1.scan_queue = some q2 ∧ runRounds env rest r1.1 = some r2 ∧
         rr = (r2.1, r1.2 ++ r2.2))) := by
  simp only [runRounds, Option.bind_eq_bind, Option.bind_eq_some] at h
  obtain ⟨r1, h1, hm⟩ := h
  refine ⟨r1, h1, ?_⟩
  revert hm
  cases hq2 : r1.1.scan_queue with
  | none =>
    intro hm
    injection hm with hm
    exact Or.inl ⟨rfl, hm.symm⟩
  | some q2 =>
    intro hm
    simp only [Option.bind_eq_bind, Option.bind_eq_some, Option.pure_def,
      Option.some.injEq] at hm
    obtain ⟨r2, h2, hr⟩ := hm
    exact Or.inr ⟨q2, r2, rfl, h2, hr.symm⟩

/-- C1: each completed per-scan computation bumps the
scans-since-last-loop-closure counter (lines 292-293); crossing the
threshold with no optimization pending raises the pending flag and, if the
queue is absent, allocates it (lines 294-302); the when-idle callback
absorbs the matcher batch, optimizes, resets the counter, clears the flag
and only then drains the buffered items (lines 305-326); the drain runs a
prefix of the queue in FIFO order exactly while the flag stays clear,
deallocates the queue when it empties, and exits with the remaining queue
intact when an item re-raises the flag, whereupon the driver re-enters
itself on the next callback. -/
theorem claim_C1 :
    (∀ (env : Env Cov Info Bnd) (s s1 : State G Cov Info),
      endOfScanTrigger env s = some s1 →
      s1.num_scans_since_last_loop_closure =
        s.num_scans_since_last_loop_closure + 1) ∧
    (∀ (env : Env Cov Info Bnd) (s s1 : State G Cov Info),
      endOfScanTrigger env s = some s1 →
      env.options.optimize_every_n_scans > 0 →
      s.num_scans_since_last_loop_closure + 1 > env.options.optimize_every_n_scans →
      s.run_loop_closure = false ∧ s1.run_loop_closure = true ∧
      (s.scan_queue = none → s1.scan_queue = some []) ∧
      (∀ q, s.scan_queue = some q → s1.scan_queue = some q)) ∧
    (∀ (env : Env Cov Info Bnd) (o : SolveOracle G) (res : MatcherResult G Info)
        (s : State G Cov Info) (r : State G Cov Info × List (Event G Cov)),
      handleQueueCallback env o res s = some r →
      ∃ q r2 r4, s.scan_queue = some q ∧
        runOptimization o { s with constraints := s.constraints ++ interify res } = some r2 ∧
        drainLoop env { r2.1 with num_scans_since_last_loop_closure := 0, run_loop_closure := false } q = some r4 ∧
        r = (r4.1, r2.2 ++ r4.2)) ∧
    (∀ (env : Env Cov Info Bnd) (q : List (WorkItem G Cov))
        (s : State G Cov Info) (r : State G Cov Info × List (Event G Cov)),
      drainLoop env s q = some r →
      ∃ k, k ≤ q.length ∧ itemsRun r.2 = q.take k ∧
        ((r.1.run_loop_closure = true ∧ r.1.scan_queue = some (q.drop k)) ∨
         (k = q.length ∧ r.1.run_loop_closure = false ∧ r.1.scan_queue = none))) ∧
    (∀ (env : Env Cov Info Bnd) (o : SolveOracle G) (res : MatcherResult G Info)
        (rest : List (SolveOracle G × MatcherResult G Info))
        (s : State G Cov Info) (rr : State G Cov Info × List (Event G Cov)),
      runRounds env ((o, res) :: rest) s = some rr →
      ∃ r1, handleQueueCallback env o res s = some r1 ∧
        ((r1.1.scan_queue = none ∧ rr = r1) ∨
         (∃ q2 r2, r1.1.scan_queue = some q2 ∧ runRounds env rest r1.1 = some r2 ∧
           rr = (r2.1, r1.2 ++ r2.2)))) :=
  ⟨fun env s s1 h => (endOfScanTrigger_spec env s s1 h).1,
   fun env s s1 h hn hcross => (endOfScanTrigger_spec env s s1 h).2.2.2 ⟨hn, hcross⟩,
   fun env o res s r h => handleQueueCallback_decomp env o res s r h,
   fun env q s r h => drainLoop_fifo env q s r h,
   fun env o res rest s rr h => runRounds_cons env o res rest s rr h⟩

/-- C1 witness: the concrete trigger crossing the threshold of one scan,
the idle callback on an allocated empty queue, the empty drain, and a
one-round driver run, all on concrete states. -/
theorem claim_C1_witness :
    (wStateTres.num_scans_since_last_loop_closure =
      wStateT.num_scans_since_last_loop_closure + 1) ∧
    (wStateT.run_loop_closure = false ∧ wStateTres.run_loop_closure = true ∧
      (wStateT.scan_queue = none → wStateTres.scan_queue = some []) ∧
      (∀ q, wStateT.scan_queue = some q → wStateTres.scan_queue = some q)) ∧
    (∃ q r2 r4, wStateC8A.scan_queue = some q ∧
      runOptimization wOracleC2 { wStateC8A with constraints := wStateC8A.constraints ++ interify wMatcherEmpty } = some r2 ∧
      drainLoop wEnv0 { r2.1 with num_scans_since_last_loop_closure := 0, run_loop_closure := false } q = some r4 ∧
      (initState (Multiplicative Int) Nat Nat,
        ([] : List (Event (Multiplicative Int) Nat))) = (r4.1, r2.2 ++ r4.2)) ∧
    (∃ k, k ≤ ([] : List (WorkItem (Multiplicative Int) Nat)).length ∧
      itemsRun (initState (Multiplicative Int) Nat Nat,
        ([] : List (Event (Multiplicative Int) Nat))).2 =
        ([] : List (WorkItem (Multiplicative Int) Nat)).take k ∧
      (((initState (Multiplicative Int) Nat Nat).run_loop_closure = true ∧
        (initState (Multiplicative Int) Nat Nat).scan_queue =
          some (([] : List (WorkItem (Multiplicative Int) Nat)).drop k)) ∨
       (k = ([] : List (WorkItem (Multiplicative Int) Nat)).length ∧
        (initState (Multiplicative Int) Nat Nat).run_loop_closure = false ∧
        (initState (Multiplicative Int) Nat Nat).scan_queue = none))) ∧
    (∃ r1, handleQueueCallback wEnv0 wOracleC2 wMatcherEmpty wStateC8A = some r1 ∧
      ((r1.1.scan_queue = none ∧
        (initState (Multiplicative Int) Nat Nat,
          ([] : List (Event (Multiplicative Int) Nat))) = r1) ∨
       (∃ q2 r2, r1.1.scan_queue = some q2 ∧
         runRounds wEnv0 ([] : List (SolveOracle (Multiplicative Int) × MatcherResult (Multiplicative Int) Nat)) r1.1 = some r2 ∧
         (initState (Multiplicative Int) Nat Nat,
           ([] : List (Event (Multiplicative Int) Nat))) = (r2.1, r1.2 ++ r2.2)))) :=
  ⟨(@claim_C1 (Multiplicative Int) Nat Nat Nat _).1 wEnv1 wStateT wStateTres rfl,
   (@claim_C1 (Multiplicative Int) Nat Nat Nat _).2.1 wEnv1 wStateT wStateTres rfl
     (by decide) (by decide),
   (@claim_C1 (Multiplicative Int) Nat Nat Nat _).2.2.1 wEnv0 wOracleC2 wMatcherEmpty
     wStateC8A (initState (Multiplicative Int) Nat Nat, []) rfl,
   (@claim_C1 (Multiplicative Int) Nat Nat Nat _).2.2.2.1 wEnv0 []
     (initState (Multiplicative Int) Nat Nat)
     (initState (Multiplicative Int) Nat Nat, []) rfl,
   (@claim_C1 (Multiplicative Int) Nat Nat Nat _).2.2.2.2 wEnv0 wOracleC2 wMatcherEmpty
     [] wStateC8A (initState (Multiplicative Int) Nat Nat, []) rfl⟩

end Theorems

end Cartographer
